import Mathlib

/-!
Verification of the data-transformation core of an NFL pool prediction
script (`transform.py`, together with the prediction stage of
`make_predictions.py`).

Tables are modelled as a list of column names together with rows of
cells; a cell is an optional scalar value, `none` standing for a pandas
null (NaN).  Pandas floats are modelled as exact rationals.  Each
definition below embeds one function or expression of the source;
library calls (`DataFrame.merge`, `DataFrame.sort`, `groupby(...).apply`,
`pd.rolling_mean`, `pd.ewma`, `Series.shift`) are embedded with the
semantics they have in the pandas version the source targets:

* `merge(..., how='left')` keeps left rows without a match, filling the
  right-hand columns with nulls; equal keys (including null = null,
  which pandas merge treats as matching) produce one output row per
  matching pair, and the left row order is preserved;
* `df.sort([...])` is a stable lexicographic sort with nulls last;
* `groupby(k)[c].apply(f)` applies `f` to the subsequence of column `c`
  belonging to each key group (groups in order of appearance) and
  aligns the result back onto the original row positions; the claims
  checked here only concern tables whose group keys are non-null, so
  the pandas rule that null-keyed rows are dropped from every group
  does not come into play.
-/

/- Batteries marks the `Rat` field operations irreducible, which stops
`decide` from evaluating concrete tables; restore reducibility for this
file so the claims can be checked on explicit inputs. -/
attribute [local semireducible] Rat.add Rat.mul Rat.sub Rat.inv

namespace NflPool

/-- A scalar cell value: string, rational number, or boolean. -/
inductive Val where
  | str (s : String)
  | num (q : Rat)
  | bool (b : Bool)
deriving DecidableEq, Repr

/-- A cell of a table; `none` models a pandas null / NaN. -/
abbrev Cell := Option Val

/-- A row of cells, positionally aligned with the table's column list. -/
abbrev Row := List Cell

/-- A data frame: named columns and rows of cells (cell `j` of a row
belongs to column `cols[j]`). -/
structure Table where
  cols : List String
  rows : List Row
deriving DecidableEq, Repr

/-- `cellAt cols r c` : the cell of row `r` in the first column named
`c` (pandas column selection `df[c]`); `none` when the column is
absent. -/
def cellAt (cols : List String) (r : Row) (c : String) : Cell :=
  (((cols.zip r).find? (fun p => p.1 == c)).map Prod.snd).getD none

/-- Numeric view of a cell (pandas coerces numeric columns to float;
a non-numeric or null cell has no numeric value). -/
def toNum : Cell → Option Rat
  | some (Val.num q) => some q
  | _ => none

/-- `del df[c]` : drop the column named `c` (column names are distinct
in all the source's tables). -/
def delCol (t : Table) (c : String) : Table :=
  ⟨t.cols.filter (fun x => !(x == c)),
   t.rows.map (fun r => ((t.cols.zip r).filter (fun p => !(p.1 == c))).map Prod.snd)⟩

/-- Concatenation of the lists produced for each element (the row
expansion performed by a pandas merge). -/
def listFlat (l : List α) (f : α → List β) : List β :=
  match l with
  | [] => []
  | a :: t => f a ++ listFlat t f

/-! ### `transform.from_byteam_to_bygame` -/

/-- `common_cols = ['Season', 'Week', 'Home', 'Away']` from
`transform.py`. -/
def common_cols : List String := ["Season", "Week", "Home", "Away"]

/-- The boolean mask `df.AtHome` (a row is selected when its `AtHome`
cell is the boolean `True`). -/
def isHomeRow (cols : List String) (r : Row) : Bool :=
  cellAt cols r "AtHome" == some (Val.bool true)

/-- The boolean mask `df.AtHome == False` (null compares unequal to
`False`, so a null `AtHome` row is selected by neither mask). -/
def isAwayRow (cols : List String) (r : Row) : Bool :=
  cellAt cols r "AtHome" == some (Val.bool false)

/-- `home = df[df.AtHome]; del home['AtHome']`. -/
def homePart (df : Table) : Table :=
  delCol ⟨df.cols, df.rows.filter (isHomeRow df.cols)⟩ "AtHome"

/-- `away = df[df.AtHome == False]; del away['AtHome']`. -/
def awayPart (df : Table) : Table :=
  delCol ⟨df.cols, df.rows.filter (isAwayRow df.cols)⟩ "AtHome"

/-- New name of column `c` in the home partition, following the
`for c in home.columns` loop of `from_byteam_to_bygame`. -/
def homeName (dont_mirror : List String) (c : String) : String :=
  if c ∈ common_cols then c
  else if c = "Team" then "Home"
  else if c = "Opponent" then "Away"
  else if c ∈ dont_mirror then c
  else "H_" ++ c

/-- `true` for the columns removed from the away partition
(`del away[c]` in the `elif c in dont_mirror` branch). -/
def mirrorDrop (dont_mirror : List String) (c : String) : Bool :=
  decide (c ∉ common_cols) && !(c == "Team") && !(c == "Opponent")
    && decide (c ∈ dont_mirror)

/-- New name of column `c` in the away partition (only applied to the
columns the away partition keeps). -/
def awayName (c : String) : String :=
  if c ∈ common_cols then c
  else if c = "Team" then "Away"
  else if c = "Opponent" then "Home"
  else "A_" ++ c

/-- The home partition after `home.columns = new_home_colnames`. -/
def homeRenamed (dont_mirror : List String) (df : Table) : Table :=
  ⟨(homePart df).cols.map (homeName dont_mirror), (homePart df).rows⟩

/-- The away partition after the `dont_mirror` deletions and
`away.columns = new_away_colnames`. -/
def awayRenamed (dont_mirror : List String) (df : Table) : Table :=
  ⟨((awayPart df).cols.filter (fun c => !mirrorDrop dont_mirror c)).map awayName,
   (awayPart df).rows.map (fun r =>
     (((awayPart df).cols.zip r).filter (fun p => !mirrorDrop dont_mirror p.1)).map
       Prod.snd)⟩

/-- The cells of the key columns `ks` of a row, as a pandas merge key. -/
def keyCells (cols : List String) (r : Row) (ks : List String) : List Cell :=
  ks.map (cellAt cols r)

/-- The right-hand rows matching a left row on the key columns `ks`. -/
def matchRows (L R : Table) (ks : List String) (lr : Row) : List Row :=
  R.rows.filter (fun rr => keyCells R.cols rr ks == keyCells L.cols lr ks)

/-- The output rows one left row contributes to a left join: its
matches, or itself padded with nulls when it has none. -/
def mergeEmit (L R : Table) (ks : List String) (lr : Row) : List Row :=
  match matchRows L R ks lr with
  | [] => [lr ++ (R.cols.filter (fun c => decide (c ∉ ks))).map
      (fun _ => (none : Cell))]
  | ms => ms.map (fun rr =>
      lr ++ ((R.cols.zip rr).filter (fun p => decide (p.1 ∉ ks))).map Prod.snd)

/-- `L.merge(R, on=ks, how='left')`: left rows in order; a left row
with no key match survives once with nulls in the right-hand non-key
columns, and a left row with `k` matches produces `k` output rows
(the cross-product effect on duplicate keys). -/
def mergeLeft (L R : Table) (ks : List String) : Table :=
  ⟨L.cols ++ R.cols.filter (fun c => decide (c ∉ ks)),
   listFlat L.rows (mergeEmit L R ks)⟩

/-- `transform.from_byteam_to_bygame(df, augment, dont_mirror)`. -/
def from_byteam_to_bygame (df : Table) (augment : Bool)
    (dont_mirror : List String) : Table :=
  if !augment then homePart df
  else mergeLeft (homeRenamed dont_mirror df) (awayRenamed dont_mirror df) common_cols

/-! ### `df.sort(['Team', 'Season', 'Week'])` -/

/-- Lexicographic combination of two boolean total preorders. -/
def lexLE (la : α → α → Bool) (lb : β → β → Bool) (p q : α × β) : Bool :=
  if la p.1 q.1 then (if la q.1 p.1 then lb p.2 q.2 else true) else false

/-- Order embedding of a cell for sorting: booleans, then numbers, then
strings, nulls last (pandas sorts nulls last); the source only ever
sorts on string and numeric key columns, so the ranking between kinds
is immaterial to the claims. -/
def cellKey : Cell → Nat × Rat × String
  | some (Val.bool b) => (0, if b then 1 else 0, "")
  | some (Val.num q) => (1, q, "")
  | some (Val.str s) => (2, 0, s)
  | none => (3, 0, "")

/-- Lexicographic comparison of character lists (by code point). -/
def charListLE : List Char → List Char → Bool
  | [], _ => true
  | _ :: _, [] => false
  | a :: s, b :: t =>
    if a.toNat < b.toNat then true
    else if b.toNat < a.toNat then false
    else charListLE s t

/-- Lexicographic string comparison (how pandas orders team names). -/
def strLE (a b : String) : Bool := charListLE a.data b.data

def tripLE : Nat × Rat × String → Nat × Rat × String → Bool :=
  lexLE (fun a b => decide (a ≤ b))
    (lexLE (fun a b => decide (a ≤ b)) strLE)

def cellLE (a b : Cell) : Bool := tripLE (cellKey a) (cellKey b)

/-- The `(Team, Season, Week)` sort / grouping key of a row. -/
def keyTSW (cols : List String) (r : Row) : Cell × Cell × Cell :=
  (cellAt cols r "Team", cellAt cols r "Season", cellAt cols r "Week")

/-- `(Season, Week)` comparison (the within-team chronological order). -/
def swLE : Cell × Cell → Cell × Cell → Bool := lexLE cellLE cellLE

def keyLE : Cell × Cell × Cell → Cell × Cell × Cell → Bool :=
  lexLE cellLE swLE

/-- Row comparison of `df.sort(['Team', 'Season', 'Week'])`. -/
def rowLE (cols : List String) (r s : Row) : Bool :=
  keyLE (keyTSW cols r) (keyTSW cols s)

/-- `df.sort(['Team', 'Season', 'Week'], inplace=True)`: pandas uses a
stable lexicographic sort for a multi-column sort; insertion sort is
stable. -/
def sortRows (cols : List String) (rs : List Row) : List Row :=
  rs.insertionSort (fun a b => rowLE cols a b)

def sortTable (t : Table) : Table := ⟨t.cols, sortRows t.cols t.rows⟩

/-! ### `groupby(...)[c].apply(f)` -/

/-- Column `c` of a table, as a series aligned with the rows. -/
def getCol (t : Table) (c : String) : List Cell := t.rows.map (fun r => cellAt t.cols r c)

/-- The grouping key (the cells of columns `ks`) of each row. -/
def keysOf (t : Table) (ks : List String) : List (List Cell) :=
  t.rows.map (fun r => keyCells t.cols r ks)

/-- The subsequence of `xs` at the positions whose key equals `k`
(one pandas group, in original row order). -/
def selectKey (k : List Cell) (keys : List (List Cell)) (xs : List Cell) : List Cell :=
  ((keys.zip xs).filter (fun p => p.1 == k)).map Prod.snd

/-- `df.groupby(ks)[c].apply(f)`: apply `f` to each key group of the
series and align the results back onto the original positions (row `i`
receives element `rank i` of `f` on `i`'s group, where `rank i` counts
the earlier rows of the same group). -/
def groupApply (keys : List (List Cell)) (xs : List Cell)
    (f : List Cell → List Cell) : List Cell :=
  (List.range keys.length).map (fun i =>
    let k := keys.getD i []
    (f (selectKey k keys xs)).getD ((keys.take i).count k) none)

/-- `df[name] = vals` for a fresh column `name`: append the column. -/
def appendCol (t : Table) (name : String) (vals : List Cell) : Table :=
  ⟨t.cols ++ [name], List.zipWith (fun r v => r ++ [v]) t.rows vals⟩

/-! ### Series operations (`shift`, `pd.rolling_mean`, `pd.ewma`) -/

/-- `Series.shift(n)`: value from `n` rows earlier, null for the first
`n` positions. -/
def shiftSeries (n : Nat) (xs : List Cell) : List Cell :=
  (List.range xs.length).map (fun i => if i < n then none else xs.getD (i - n) none)

/-- The trailing-window mean at position `i`: the simple average of the
non-null values among positions `i-window+1 .. i`, null when fewer than
`minPeriods` (or zero) such values exist. -/
def windowMean (window minPeriods : Nat) (xs : List (Option Rat)) (i : Nat) : Option Rat :=
  if minPeriods ≤ (((xs.take (i + 1)).drop (i + 1 - window)).filterMap id).length
      ∧ 0 < (((xs.take (i + 1)).drop (i + 1 - window)).filterMap id).length then
    some ((((xs.take (i + 1)).drop (i + 1 - window)).filterMap id).sum
      / (((((xs.take (i + 1)).drop (i + 1 - window)).filterMap id).length : Nat) : Rat))
  else none

/-- `pd.rolling_mean(s, window, min_periods)` on one group series. -/
def rollingMeanSeries (window minPeriods : Nat) (xs : List Cell) : List Cell :=
  (List.range xs.length).map (fun i =>
    (windowMean window minPeriods (xs.map toNum) i).map Val.num)

/-- The exponentially weighted average at position `i` with smoothing
factor `alpha`, pandas default weighting (`adjust=True`,
`ignore_na=False`): the weight of the observation at position `j ≤ i`
is `(1-alpha)^(i-j)`, null observations carry no weight but still age
the earlier ones. -/
def ewmaAt (alpha : Rat) (xs : List (Option Rat)) (i : Nat) : Option Rat :=
  let ws := (List.range (i + 1)).filterMap (fun j =>
    (xs.getD j none).map (fun x => ((1 - alpha) ^ (i - j), x)))
  if ws.isEmpty then none
  else some (((ws.map (fun p => p.1 * p.2)).sum) / ((ws.map Prod.fst).sum))

/-- `pd.ewma(s, com)` on one group series (`com` is the center-of-mass
parameter, the second positional argument of `pd.ewma`;
`alpha = 1 / (1 + com)`). -/
def ewmaSeries (com : Rat) (xs : List Cell) : List Cell :=
  (List.range xs.length).map (fun i =>
    (ewmaAt (1 / (1 + com)) (xs.map toNum) i).map Val.num)

/-! ### `transform.add_derived_columns` -/

/-- `df['Spread'] = df.Points - df.PointsAllowed` at one row (null
propagates). -/
def spreadCell (cols : List String) (r : Row) : Cell :=
  match toNum (cellAt cols r "Points"), toNum (cellAt cols r "PointsAllowed") with
  | some p, some q => some (Val.num (p - q))
  | _, _ => none

/-- The running win-fraction over one `(Team, Season)` group series of
spreads: `(0.5 * (s == 0).cumsum() + (s > 0).cumsum()) / s.notnull().cumsum()`.
A pandas float `0/0` is NaN, hence the null before the first non-null
spread. -/
def winPctSeries (xs : List Cell) : List Cell :=
  (List.range xs.length).map (fun i =>
    let pre := xs.take (i + 1)
    let ties := (pre.filter (fun v => toNum v == some 0)).length
    let wins := (pre.filter (fun v =>
      match toNum v with | some q => decide (0 < q) | none => false)).length
    let nn := (pre.filter (fun v => v.isSome)).length
    if nn = 0 then none
    else some (Val.num (((1 / 2 : Rat) * ties + wins) / nn)))

/-- One `(Team, Season)` group of
`df.groupby(['Team','Season'])['Spread'].shift(1).isnull()`: a boolean
series, true where the shifted spread is null (in particular at the
first row of the group, whose shifted value is the null introduced by
the shift). -/
def lastWkByeSeries (xs : List Cell) : List Cell :=
  (shiftSeries 1 xs).map (fun v => some (Val.bool v.isNone))

/-- `series.fillna(False)` (a no-op after `isnull()`, which never
produces nulls; kept for fidelity to the source line). -/
def fillnaFalse (xs : List Cell) : List Cell :=
  xs.map (fun v => if v = none then some (Val.bool false) else v)

/-- `df.ix[row, c] = v` for one row: replace the cell of the column
named `c` (column names are distinct in the source's tables). -/
def setCell (cols : List String) (r : Row) (c : String) (v : Cell) : Row :=
  (cols.zip r).map (fun p => if p.1 == c then v else p.2)

/-- `df.ix[df.Week == 1, 'LastWkBye'] = False`. -/
def setWeek1False (t : Table) : Table :=
  ⟨t.cols,
   t.rows.map (fun r =>
     if toNum (cellAt t.cols r "Week") == some 1 then
       setCell t.cols r "LastWkBye" (some (Val.bool false))
     else r)⟩

/-- `transform.add_derived_columns(df)`.  The Python function mutates
`df` in place; the embedding returns the table the caller's `df` holds
after the call. -/
def add_derived_columns (df : Table) : Table :=
  let d1 := appendCol df "Spread" (df.rows.map (spreadCell df.cols))
  let d2 := appendCol d1 "WinPct"
    (groupApply (keysOf d1 ["Team", "Season"]) (getCol d1 "Spread") winPctSeries)
  let d3 := sortTable d2
  let d4 := appendCol d3 "LastWkBye"
    (fillnaFalse (groupApply (keysOf d3 ["Team", "Season"]) (getCol d3 "Spread")
      lastWkByeSeries))
  setWeek1False d4

/-! ### `transform.add_rolling_mean`, `add_ewma`, `add_lag`

Each sorts by `(Team, Season, Week)` once, then adds one new column per
source column, grouping by `Team` alone so the statistics cross season
boundaries.  `pfx` stands for the already-formatted prefix template
(`prefix.format(...)` in the source).  The Python functions mutate `df`
in place; each embedding returns the table the caller's `df` holds
after the call. -/

def add_rolling_mean (df : Table) (cols : List String) (pfx : String)
    (window minPeriods : Nat) : Table :=
  cols.foldl (fun t c =>
    appendCol t (pfx ++ c)
      (groupApply (keysOf t ["Team"]) (getCol t c) (rollingMeanSeries window minPeriods)))
    (sortTable df)

def add_ewma (df : Table) (cols : List String) (pfx : String) (center : Rat) : Table :=
  cols.foldl (fun t c =>
    appendCol t (pfx ++ c)
      (groupApply (keysOf t ["Team"]) (getCol t c) (ewmaSeries center)))
    (sortTable df)

def add_lag (df : Table) (cols : List String) (pfx : String) (lag : Nat) : Table :=
  cols.foldl (fun t c =>
    appendCol t (pfx ++ c)
      (groupApply (keysOf t ["Team"]) (getCol t c) (shiftSeries lag)))
    (sortTable df)

/-! ### The prediction guard of `make_predictions.py`

`viable_input = input_data.notnull().all(axis=1)` selects the rows with
no null among the model input features;
`future_weeks = (df.Spread.isnull() & df.Away.notnull())` the rows with
unobserved outcome and a non-null opponent.  When no row is both, the
script prints an informational message and continues; the classifier is
a black box (a function from the selected rows to one probability per
row). -/

/-- A row all of whose selected feature cells are non-null. -/
def viableRow (cols : List String) (feats : List String) (r : Row) : Bool :=
  feats.all (fun c => (cellAt cols r c).isSome)

/-- A future week: no observed spread, but a non-null opponent. -/
def futureRow (cols : List String) (r : Row) : Bool :=
  (cellAt cols r "Spread").isNone && (cellAt cols r "Away").isSome

/-- `df[viable_input & future_weeks]` : the prediction set. -/
def predictionInput (df : Table) (feats : List String) : List Row :=
  df.rows.filter (fun r => viableRow df.cols feats r && futureRow df.cols r)

/-- Outcome of the win-probability prediction stage: the informational
messages printed and the predictions (one probability per selected
row). -/
structure PredictRun where
  messages : List String
  predictions : List (Row × Rat)
deriving Repr

/-- The guard and prediction of `make_predictions.py` lines 198-208:
print the informational message when the prediction set is empty (the
`if sum(viable_input & future_weeks) == 0` branch only prints), then
apply the black-box model to the selected rows.  The function always
returns: the run continues to completion. -/
def runPrediction (model : List Row → List Rat) (df : Table)
    (feats : List String) : PredictRun :=
  let sel := predictionInput df feats
  let msgs :=
    if sel.length = 0 then ["No viable data available for prediction."] else []
  ⟨msgs, sel.zip (model sel)⟩

/-- Index of the first element satisfying a predicate. -/
def idxFind {α : Type} (p : α → Bool) : List α → Option Nat
  | [] => none
  | r :: t => if p r then some 0 else (idxFind p t).map (· + 1)

/-- The cell of column `c` in the first row whose `(Team, Season, Week)`
key is `k`; `none` when no row has that key. -/
def valAtKey (t : Table) (k : Cell × Cell × Cell) (c : String) : Cell :=
  match idxFind (fun r => keyTSW t.cols r == k) t.rows with
  | some i => cellAt t.cols (t.rows.getD i []) c
  | none => none

/-! ### Claim-side formulations

The following definitions restate quantities the claims describe in
their own terms (group prefixes by key, the claimed running-fraction
formula); the theorems below relate them to the embedded pipeline. -/

/-- The rows of `i`'s key group among the first `i + 1` rows: what the
claims call the group "up to and including the current row". -/
def groupPrefix (df : Table) (ks : List String) (i : Nat) : List Row :=
  (df.rows.take (i + 1)).filter (fun r =>
    keyCells df.cols r ks == keyCells df.cols (df.rows.getD i []) ks)

/-- The claimed `WinPct` value at row `i` of a sorted byteam table:
`(0.5 * ties-so-far + wins-so-far) / non-null-spreads-so-far` over the
`(Team, Season)` group, null before the first non-null spread. -/
def winPctClaim (df : Table) (i : Nat) : Cell :=
  let sp := (groupPrefix df ["Team", "Season"] i).map (spreadCell df.cols)
  let nn := (sp.filter (fun v => v.isSome)).length
  let ties := (sp.filter (fun v => toNum v == some 0)).length
  let wins := (sp.filter (fun v =>
    match toNum v with | some q => decide (0 < q) | none => false)).length
  if nn = 0 then none
  else some (Val.num (((1 / 2 : Rat) * ties + wins) / nn))

/-- The amended `LastWkBye` value at row `i` of a sorted byteam table:
true exactly when the row's Week is not 1 and either the row opens its
`(Team, Season)` group or the previous group row's Spread is null
(the group's first row is false only through the `Week == 1` fixup). -/
def lastWkByeClaim (df : Table) (i : Nat) : Cell :=
  let pre := groupPrefix df ["Team", "Season"] i
  let isWeek1 := toNum (cellAt df.cols (df.rows.getD i []) "Week") == some 1
  some (Val.bool (!isWeek1 &&
    (if pre.length ≤ 1 then true
     else (spreadCell df.cols (pre.getD (pre.length - 2) [])).isNone)))

/-- The claimed rolling-mean value at row `i`: the simple average of
the non-null values of column `c` in the trailing window of up to
`window` rows of `i`'s Team group (up to and including row `i`), null
when fewer than `minPeriods` (or zero) observations are available. -/
def rollingMeanClaim (df : Table) (c : String) (window minPeriods : Nat)
    (i : Nat) : Cell :=
  let pre := (groupPrefix df ["Team"] i).map (fun r => cellAt df.cols r c)
  let obs := (pre.drop (pre.length - window)).filterMap toNum
  if minPeriods ≤ obs.length ∧ 0 < obs.length then
    some (Val.num (obs.sum / (obs.length : Rat)))
  else none

/-- The amended EWMA value at row `i`: the pandas `adjust=True`
weighted average of the observations of `i`'s Team group so far, the
observation `j` steps before the current row carrying weight
`(1 - alpha)^j` with `alpha = 1 / (1 + center)`. -/
def ewmaClaim (df : Table) (c : String) (center : Rat) (i : Nat) : Cell :=
  let pre := (groupPrefix df ["Team"] i).map (fun r => cellAt df.cols r c)
  (ewmaAt (1 / (1 + center)) (pre.map toNum) (pre.length - 1)).map Val.num

/-! ### Concrete tables used to instantiate the claims -/

def vS (s : String) : Cell := some (Val.str s)
def vN (q : Rat) : Cell := some (Val.num q)
def vB (b : Bool) : Cell := some (Val.bool b)

/-- A byteam table in which the triple `(2015, 1, "B")` appears twice
(two away rows for the same game). -/
def tblC6 : Table :=
  ⟨["Season", "Week", "Team", "Opponent", "AtHome", "Fumbles"],
   [[vN 2015, vN 1, vS "A", vS "B", vB true, vN 0],
    [vN 2015, vN 1, vS "B", vS "A", vB false, vN 1],
    [vN 2015, vN 1, vS "B", vS "A", vB false, vN 2]]⟩

/-- One team, one season, weeks 2 and 3 (a group whose first week is
not week 1). -/
def tblC2 : Table :=
  ⟨["Team", "Season", "Week", "Points", "PointsAllowed"],
   [[vS "A", vN 2015, vN 2, vN 10, vN 5],
    [vS "A", vN 2015, vN 3, vN 6, vN 3]]⟩

/-- The spec's `LastWkBye` example: one team, weeks 1, 2, 3 with
spreads `[5, null, 3]` (week 2 is a bye). -/
def tblC2w : Table :=
  ⟨["Team", "Season", "Week", "Points", "PointsAllowed"],
   [[vS "A", vN 2015, vN 1, vN 10, vN 5],
    [vS "A", vN 2015, vN 2, none, none],
    [vS "A", vN 2015, vN 3, vN 6, vN 3]]⟩

/-- One team, weeks 1-3 with spreads `[0, null, 3]` (a tie, a bye, and
a win): running WinPct `[1/2, 1/2, 3/4]`. -/
def tblC4 : Table :=
  ⟨["Team", "Season", "Week", "Points", "PointsAllowed"],
   [[vS "A", vN 2015, vN 1, vN 7, vN 7],
    [vS "A", vN 2015, vN 2, none, none],
    [vS "A", vN 2015, vN 3, vN 10, vN 7]]⟩

/-- One team, two weeks, source values 0 and 1. -/
def tblC5 : Table :=
  ⟨["Team", "Season", "Week", "Points"],
   [[vS "A", vN 2015, vN 1, vN 0],
    [vS "A", vN 2015, vN 2, vN 1]]⟩

/-- One team with a 2014 tail game and a 2015 opener. -/
def tblC3a : Table :=
  ⟨["Team", "Season", "Week", "Sacks"],
   [[vS "A", vN 2014, vN 17, vN 10],
    [vS "A", vN 2015, vN 1, vN 20]]⟩

/-- Same as `tblC3a` but the prior-season tail value is changed. -/
def tblC3b : Table :=
  ⟨["Team", "Season", "Week", "Sacks"],
   [[vS "A", vN 2014, vN 17, vN 99],
    [vS "A", vN 2015, vN 1, vN 20]]⟩

/-- One team, two weeks, observations 10 and 20: with `window=5,
min_periods=2` the rolling mean is `[null, 15]`. -/
def tblC7 : Table :=
  ⟨["Team", "Season", "Week", "Fumbles"],
   [[vS "A", vN 2015, vN 1, vN 10],
    [vS "A", vN 2015, vN 2, vN 20]]⟩

/-- A one-row table: calling `add_lag` on it appends a column (and so
changes the caller's table). -/
def tblC8 : Table :=
  ⟨["Team", "Season", "Week", "Fumbles"],
   [[vS "A", vN 2015, vN 1, vN 2]]⟩

/-- A small unsorted table for the frame-effect witness. -/
def tblC8w : Table :=
  ⟨["Team", "Season", "Week", "Fumbles"],
   [[vS "B", vN 2015, vN 1, vN 3],
    [vS "A", vN 2015, vN 2, vN 2],
    [vS "A", vN 2015, vN 1, vN 1]]⟩

/-- A table whose single row is neither viable nor future (the model
feature is null and the outcome is already observed). -/
def tblC9 : Table :=
  ⟨["Season", "Week", "Home", "Away", "Spread", "H_LastWkBye"],
   [[vN 2015, vN 3, vS "A", vS "B", vN 7, none]]⟩

/-- A byteam table with one home row, one away row and a bye row. -/
def tblC10 : Table :=
  ⟨["Season", "Week", "Team", "Opponent", "AtHome", "Points"],
   [[vN 2015, vN 1, vS "A", vS "B", vB true, vN 20],
    [vN 2015, vN 1, vS "B", vS "A", vB false, vN 10],
    [vN 2015, vN 2, vS "C", none, vB true, none]]⟩

/-- Same as `tblC3a` except that the 2015 opener's value is changed
(a row strictly later than the 2014 tail game). -/
def tblC3c : Table :=
  ⟨["Team", "Season", "Week", "Sacks"],
   [[vS "A", vN 2014, vN 17, vN 10],
    [vS "A", vN 2015, vN 1, vN 77]]⟩

/-- A byteam table for the C1 witness: a home/away pair of rows plus a
bye (home-flagged, null Opponent) row, with a spare stat column. -/
def tblC1 : Table :=
  ⟨["Season", "Week", "Team", "Opponent", "AtHome", "Points"],
   [[vN 2015, vN 1, vS "A", vS "B", vB true, vN 20],
    [vN 2015, vN 1, vS "B", vS "A", vB false, vN 10],
    [vN 2015, vN 2, vS "C", none, vB true, none]]⟩

/-- A series transform depends only on the prefix of its input up to
each position: the value it yields at position `n` is unchanged when
the input is replaced by an equally long series with the same first
`n + 1` entries.  `shift`, `pd.rolling_mean` and `pd.ewma` all have
this property (it is what "no future information" means for a series). -/
def prefixDep (f : List Cell → List Cell) : Prop :=
  ∀ (u v : List Cell) (n : Nat), u.length = v.length →
    u.take (n + 1) = v.take (n + 1) →
    (f u).getD n none = (f v).getD n none

/-! ## Lemmas about the embedding -/

theorem listFlat_length (l : List α) (f : α → List β) :
    (listFlat l f).length = (l.map (fun a => (f a).length)).sum := by
  induction l with
  | nil => rfl
  | cons a t ih => simp [listFlat, ih]

theorem mergeEmit_nil {L R : Table} {ks : List String} {lr : Row}
    (h : matchRows L R ks lr = []) :
    mergeEmit L R ks lr
      = [lr ++ (R.cols.filter (fun c => decide (c ∉ ks))).map
          (fun _ => (none : Cell))] := by
  unfold mergeEmit
  rw [h]

theorem mergeEmit_cons {L R : Table} {ks : List String} {lr : Row} {m : Row}
    {ms : List Row} (h : matchRows L R ks lr = m :: ms) :
    mergeEmit L R ks lr
      = (m :: ms).map (fun rr =>
          lr ++ ((R.cols.zip rr).filter (fun p => decide (p.1 ∉ ks))).map
            Prod.snd) := by
  unfold mergeEmit
  rw [h]

theorem mergeEmit_length (L R : Table) (ks : List String) (lr : Row) :
    (mergeEmit L R ks lr).length = max 1 (matchRows L R ks lr).length := by
  cases hm : matchRows L R ks lr with
  | nil => rw [mergeEmit_nil hm]; simp
  | cons m ms =>
    rw [mergeEmit_cons hm]
    simp only [List.length_map, List.length_cons]
    exact (Nat.max_eq_right (Nat.succ_le_succ (Nat.zero_le _))).symm

theorem find?_filterB (l : List α) (q p : α → Bool) :
    (l.filter q).find? p = l.find? (fun a => q a && p a) := by
  induction l with
  | nil => rfl
  | cons a t ih =>
    cases hq : q a <;> cases hp : p a <;>
      simp [List.filter_cons, hq, List.find?_cons, hp, ih]

/-- The filtered association list of a filtered table: filtering the
columns and the cells in step keeps them zipped. -/
theorem zip_filter_fst {α β} (zs : List (α × β)) (q : α → Bool) :
    ((zs.map Prod.fst).filter q).zip ((zs.filter (fun p => q p.1)).map Prod.snd)
      = zs.filter (fun p => q p.1) := by
  induction zs with
  | nil => rfl
  | cons p t ih =>
    cases hq : q p.1 <;> simp [List.filter_cons, hq, ih]

theorem filter_map_fst {α β} (zs : List (α × β)) (q : α → Bool) :
    (zs.map Prod.fst).filter q = (zs.filter (fun p => q p.1)).map Prod.fst := by
  induction zs with
  | nil => rfl
  | cons p t ih =>
    cases hq : q p.1 <;> simp [List.filter_cons, hq, ih]

/-- Column lookup in a name-filtered table (`delCol`, the `dont_mirror`
deletions): unchanged for any column the filter keeps. -/
theorem cellAt_subAssoc (cols : List String) (r : Row) (q : String → Bool)
    (c : String) (h : cols.length = r.length) (hq : q c = true) :
    cellAt (cols.filter q) (((cols.zip r).filter (fun p => q p.1)).map Prod.snd) c
      = cellAt cols r c := by
  have hfst : (cols.zip r).map Prod.fst = cols := List.map_fst_zip cols r h.le
  have h1 : cols.filter q = ((cols.zip r).map Prod.fst).filter q := by rw [hfst]
  unfold cellAt
  rw [h1, zip_filter_fst, find?_filterB]
  have h2 : (fun p : String × Cell => q p.1 && (p.1 == c)) = fun p => p.1 == c := by
    funext p
    cases hpc : (p.1 == c)
    · simp [hpc]
    · have hp : p.1 = c := by simpa using hpc
      simp [hp, hq]
  rw [h2]

theorem delCol_cols (t : Table) (c : String) :
    (delCol t c).cols = t.cols.filter (fun x => !(x == c)) := rfl

theorem delCol_rows (t : Table) (c : String) :
    (delCol t c).rows = t.rows.map (fun r =>
      ((t.cols.zip r).filter (fun p => !(p.1 == c))).map Prod.snd) := rfl

theorem cellAt_nil (cols : List String) (c : String) : cellAt cols [] c = none := by
  simp [cellAt, List.zip_nil_right]

/-- Appending a fresh column does not change the lookup of another
column. -/
theorem cellAt_append_one (cols : List String) (r : Row) (n c : String) (v : Cell)
    (hlen : cols.length = r.length) (hne : c ≠ n) :
    cellAt (cols ++ [n]) (r ++ [v]) c = cellAt cols r c := by
  unfold cellAt
  rw [List.zip_append hlen, List.find?_append]
  cases h : (cols.zip r).find? (fun p => p.1 == c) with
  | some p => simp [h]
  | none =>
    have hn : (n == c) = false := beq_eq_false_iff_ne.mpr (Ne.symm hne)
    simp [h, List.find?, hn]

/-- Looking up a freshly appended column finds its value. -/
theorem cellAt_append_self (cols : List String) (r : Row) (n : String) (v : Cell)
    (hlen : cols.length = r.length) (hfresh : n ∉ cols) :
    cellAt (cols ++ [n]) (r ++ [v]) n = v := by
  unfold cellAt
  rw [List.zip_append hlen, List.find?_append]
  have h1 : (cols.zip r).find? (fun p => p.1 == n) = none := by
    rw [List.find?_eq_none]
    intro p hp hb
    have hpn : p.1 = n := by simpa using hb
    exact hfresh (hpn ▸ (List.of_mem_zip hp).1)
  simp [h1, List.find?]

theorem appendCol_cols (t : Table) (n : String) (vals : List Cell) :
    (appendCol t n vals).cols = t.cols ++ [n] := rfl

theorem appendCol_rows_length (t : Table) (n : String) (vals : List Cell)
    (h : vals.length = t.rows.length) :
    (appendCol t n vals).rows.length = t.rows.length := by
  show (List.zipWith _ t.rows vals).length = _
  rw [List.length_zipWith, h, Nat.min_self]

theorem appendCol_rows_getD (t : Table) (n : String) (vals : List Cell) (i : Nat)
    (hl : vals.length = t.rows.length) (hi : i < t.rows.length) :
    (appendCol t n vals).rows.getD i [] = t.rows.getD i [] ++ [vals.getD i none] := by
  show (List.zipWith (fun r v => r ++ [v]) t.rows vals).getD i [] = _
  rw [List.getD_eq_getElem?_getD, List.getElem?_zipWith,
    List.getElem?_eq_getElem hi, List.getElem?_eq_getElem (hl ▸ hi),
    List.getD_eq_getElem?_getD, List.getD_eq_getElem?_getD,
    List.getElem?_eq_getElem hi, List.getElem?_eq_getElem (hl ▸ hi)]
  rfl

theorem groupApply_length (keys : List (List Cell)) (xs : List Cell)
    (f : List Cell → List Cell) : (groupApply keys xs f).length = keys.length := by
  simp [groupApply]

theorem groupApply_getD (keys : List (List Cell)) (xs : List Cell)
    (f : List Cell → List Cell) (i : Nat) (hi : i < keys.length) :
    (groupApply keys xs f).getD i none
      = (f (selectKey (keys.getD i []) keys xs)).getD
          ((keys.take i).count (keys.getD i [])) none := by
  unfold groupApply
  rw [List.getD_eq_getElem?_getD, List.getElem?_map, List.getElem?_range hi]
  rfl

theorem selectKey_append (k : List Cell) (ks1 ks2 : List (List Cell))
    (xs1 xs2 : List Cell) (h : ks1.length = xs1.length) :
    selectKey k (ks1 ++ ks2) (xs1 ++ xs2)
      = selectKey k ks1 xs1 ++ selectKey k ks2 xs2 := by
  unfold selectKey
  rw [List.zip_append h, List.filter_append, List.map_append]

theorem selectKey_map (rows : List Row) (kf : Row → List Cell) (vf : Row → Cell)
    (k : List Cell) :
    selectKey k (rows.map kf) (rows.map vf)
      = (rows.filter (fun r => kf r == k)).map vf := by
  unfold selectKey
  rw [List.zip_map' kf vf rows, List.filter_map, List.map_map]
  rfl

theorem selectKey_length (k : List Cell) (keys : List (List Cell)) (xs : List Cell)
    (h : keys.length = xs.length) :
    (selectKey k keys xs).length = keys.count k := by
  unfold selectKey
  rw [List.length_map]
  have h1 := congrArg List.length (filter_map_fst (keys.zip xs) (fun a => a == k))
  rw [List.map_fst_zip keys xs h.le, List.length_map] at h1
  rw [List.count_eq_countP, List.countP_eq_length_filter, h1]

theorem count_take_succ_self (keys : List (List Cell)) (i : Nat) (k : List Cell)
    (hi : i < keys.length) (hk : keys.getD i [] = k) :
    (keys.take (i + 1)).count k = (keys.take i).count k + 1 := by
  rw [List.take_succ, List.getElem?_eq_getElem hi, List.count_append]
  have hkk : keys[i] = k := by
    rw [← hk, List.getD_eq_getElem?_getD, List.getElem?_eq_getElem hi]
    rfl
  simp [hkk]

/-- The first `rank i + 1` members of row `i`'s group are exactly the
group members among the first `i + 1` rows. -/
theorem selectKey_take (keys : List (List Cell)) (xs : List Cell) (i : Nat)
    (k : List Cell) (hk : keys.getD i [] = k)
    (hlen : keys.length = xs.length) (hi : i < keys.length) :
    (selectKey k keys xs).take ((keys.take i).count k + 1)
      = selectKey k (keys.take (i + 1)) (xs.take (i + 1)) := by
  have htl : (keys.take (i + 1)).length = (xs.take (i + 1)).length := by
    rw [List.length_take, List.length_take, hlen]
  have hs : selectKey k keys xs
      = selectKey k (keys.take (i + 1)) (xs.take (i + 1))
        ++ selectKey k (keys.drop (i + 1)) (xs.drop (i + 1)) := by
    conv_lhs => rw [← List.take_append_drop (i + 1) keys,
      ← List.take_append_drop (i + 1) xs]
    exact selectKey_append k _ _ _ _ htl
  have hlen1 : (selectKey k (keys.take (i + 1)) (xs.take (i + 1))).length
      = (keys.take i).count k + 1 := by
    rw [selectKey_length k _ _ htl, ← count_take_succ_self keys i k hi hk]
  rw [hs, ← hlen1, List.take_left]

theorem zip_setCell (cols : List String) (r : Row) (c : String) (v : Cell)
    (hlen : cols.length = r.length) :
    cols.zip (setCell cols r c v)
      = (cols.zip r).map (fun p => (p.1, if p.1 == c then v else p.2)) := by
  have h2 := List.zip_map' Prod.fst
    (fun p : String × Cell => if p.1 == c then v else p.2) (cols.zip r)
  rw [List.map_fst_zip cols r hlen.le] at h2
  exact h2

theorem cellAt_setCell_ne (cols : List String) (r : Row) (c c2 : String) (v : Cell)
    (hlen : cols.length = r.length) (hne : c2 ≠ c) :
    cellAt cols (setCell cols r c v) c2 = cellAt cols r c2 := by
  unfold cellAt
  rw [zip_setCell cols r c v hlen, List.find?_map]
  have hcomp : ((fun p : String × Cell => p.1 == c2)
        ∘ (fun p : String × Cell => (p.1, if p.1 == c then v else p.2)))
      = fun p : String × Cell => p.1 == c2 := rfl
  rw [hcomp]
  cases hf : (cols.zip r).find? (fun p => p.1 == c2) with
  | none => rfl
  | some p =>
    have hp2 : p.1 = c2 := by simpa using List.find?_some hf
    simp [hp2, hne]

theorem zip_fst_mem (cols : List String) (r : Row) (c : String)
    (hlen : cols.length = r.length) (hc : c ∈ cols) :
    ∃ p ∈ cols.zip r, p.1 = c := by
  induction cols generalizing r with
  | nil => cases hc
  | cons a t ih =>
    cases r with
    | nil => simp at hlen
    | cons v' rt =>
      rcases List.mem_cons.mp hc with h | h
      · exact ⟨(a, v'), List.mem_cons_self _ _, h.symm⟩
      · obtain ⟨p, hp, hpc⟩ := ih rt (by simpa using hlen) h
        exact ⟨p, List.mem_cons_of_mem _ hp, hpc⟩

theorem cellAt_setCell_self (cols : List String) (r : Row) (c : String) (v : Cell)
    (hlen : cols.length = r.length) (hc : c ∈ cols) :
    cellAt cols (setCell cols r c v) c = v := by
  unfold cellAt
  rw [zip_setCell cols r c v hlen, List.find?_map]
  have hcomp : ((fun p : String × Cell => p.1 == c)
        ∘ (fun p : String × Cell => (p.1, if p.1 == c then v else p.2)))
      = fun p : String × Cell => p.1 == c := rfl
  rw [hcomp]
  obtain ⟨p, hp, hpc⟩ := zip_fst_mem cols r c hlen hc
  have hsome : ((cols.zip r).find? (fun p => p.1 == c)).isSome := by
    rw [List.find?_isSome]
    exact ⟨p, hp, by simp [hpc]⟩
  obtain ⟨p', hp'⟩ := Option.isSome_iff_exists.mp hsome
  have hp'c : p'.1 = c := by
    have h5 := List.find?_some hp'
    simpa using h5
  rw [hp']
  simp [hp'c]

theorem mem_zipWith {f : α → β → γ} :
    ∀ {l : List α} {m : List β} {c : γ},
    c ∈ List.zipWith f l m → ∃ a b, a ∈ l ∧ b ∈ m ∧ c = f a b := by
  intro l
  induction l with
  | nil => intro m c h; simp at h
  | cons a t ih =>
    intro m c h
    cases m with
    | nil => simp at h
    | cons b mt =>
      rcases List.mem_cons.mp h with h1 | h1
      · exact ⟨a, b, List.mem_cons_self _ _, List.mem_cons_self _ _, h1⟩
      · obtain ⟨a2, b2, ha, hb, hc⟩ := ih h1
        exact ⟨a2, b2, List.mem_cons_of_mem _ ha, List.mem_cons_of_mem _ hb, hc⟩

theorem pairwise_zipWith_of {α β γ : Type} {P : α → α → Prop} {Q : γ → γ → Prop}
    (f : α → β → γ) :
    ∀ (l : List α) (m : List β), l.Pairwise P →
    (∀ a ∈ l, ∀ a2 ∈ l, P a a2 → ∀ b b2, Q (f a b) (f a2 b2)) →
    (List.zipWith f l m).Pairwise Q := by
  intro l
  induction l with
  | nil => intro m _ _; simp
  | cons a t ih =>
    intro m hp hq
    cases m with
    | nil => simp
    | cons b mt =>
      rw [List.zipWith_cons_cons]
      constructor
      · intro c hc
        obtain ⟨a2, b2, ha2, _, rfl⟩ := mem_zipWith hc
        exact hq a (List.mem_cons_self _ _) a2 (List.mem_cons_of_mem _ ha2)
          ((List.pairwise_cons.mp hp).1 a2 ha2) b b2
      · exact ih mt (List.pairwise_cons.mp hp).2
          (fun x hx y hy => hq x (List.mem_cons_of_mem _ hx) y
            (List.mem_cons_of_mem _ hy))

theorem sortRows_eq_of_sorted (cols : List String) (rs : List Row)
    (h : rs.Pairwise (fun a b => rowLE cols a b = true)) : sortRows cols rs = rs :=
  List.Sorted.insertionSort_eq h

theorem keyTSW_append_one (cols : List String) (r : Row) (n : String) (v : Cell)
    (hlen : cols.length = r.length)
    (h1 : "Team" ≠ n) (h2 : "Season" ≠ n) (h3 : "Week" ≠ n) :
    keyTSW (cols ++ [n]) (r ++ [v]) = keyTSW cols r := by
  unfold keyTSW
  rw [cellAt_append_one _ _ _ _ _ hlen h1, cellAt_append_one _ _ _ _ _ hlen h2,
    cellAt_append_one _ _ _ _ _ hlen h3]

theorem appendCol_mem (t : Table) (n : String) (vals : List Cell) :
    ∀ x ∈ (appendCol t n vals).rows, ∃ r v, r ∈ t.rows ∧ x = r ++ [v] := by
  intro x hx
  obtain ⟨r, v, hr, _, rfl⟩ := mem_zipWith hx
  exact ⟨r, v, hr, rfl⟩

theorem appendCol_hlen (t : Table) (n : String) (vals : List Cell)
    (hlen : ∀ r ∈ t.rows, r.length = t.cols.length) :
    ∀ x ∈ (appendCol t n vals).rows, x.length = (appendCol t n vals).cols.length := by
  intro x hx
  obtain ⟨r, v, hr, rfl⟩ := appendCol_mem t n vals x hx
  rw [appendCol_cols]
  simp [hlen r hr]

theorem appendCol_pairwise (t : Table) (n : String) (vals : List Cell)
    (hlen : ∀ r ∈ t.rows, r.length = t.cols.length)
    (h1 : "Team" ≠ n) (h2 : "Season" ≠ n) (h3 : "Week" ≠ n)
    (hp : t.rows.Pairwise (fun a b => rowLE t.cols a b = true)) :
    (appendCol t n vals).rows.Pairwise
      (fun a b => rowLE (appendCol t n vals).cols a b = true) := by
  apply pairwise_zipWith_of _ _ _ hp
  intro a ha a2 ha2 hP b b2
  rw [appendCol_cols]
  show rowLE (t.cols ++ [n]) (a ++ [b]) (a2 ++ [b2]) = true
  unfold rowLE
  rw [keyTSW_append_one t.cols a n b (hlen a ha).symm h1 h2 h3,
    keyTSW_append_one t.cols a2 n b2 (hlen a2 ha2).symm h1 h2 h3]
  exact hP

theorem zipWith_congr_mem {α β γ : Type} (f g : α → β → γ) :
    ∀ (l : List α) (m : List β), (∀ a ∈ l, ∀ b ∈ m, f a b = g a b) →
    List.zipWith f l m = List.zipWith g l m := by
  intro l
  induction l with
  | nil => intro m _; rfl
  | cons a t ih =>
    intro m h
    cases m with
    | nil => rfl
    | cons b mt =>
      rw [List.zipWith_cons_cons, List.zipWith_cons_cons,
        h a (List.mem_cons_self _ _) b (List.mem_cons_self _ _),
        ih mt (fun x hx y hy => h x (List.mem_cons_of_mem _ hx) y
          (List.mem_cons_of_mem _ hy))]

theorem zipWith_fst_fun {α β γ : Type} (h : α → γ) :
    ∀ (l : List α) (m : List β), l.length = m.length →
    List.zipWith (fun a _ => h a) l m = l.map h := by
  intro l
  induction l with
  | nil => intro m _; rfl
  | cons a t ih =>
    intro m hm
    cases m with
    | nil => simp at hm
    | cons b mt =>
      rw [List.zipWith_cons_cons, List.map_cons, ih mt (by simpa using hm)]

theorem zipWith_snd_fun {α β : Type} :
    ∀ (l : List α) (m : List β), l.length = m.length →
    List.zipWith (fun _ b => b) l m = m := by
  intro l
  induction l with
  | nil => intro m hm; cases m; rfl; simp at hm
  | cons a t ih =>
    intro m hm
    cases m with
    | nil => simp at hm
    | cons b mt => rw [List.zipWith_cons_cons, ih mt (by simpa using hm)]

theorem keysOf_appendCol (t : Table) (n : String) (vals : List Cell)
    (ks : List String) (hlen : ∀ r ∈ t.rows, r.length = t.cols.length)
    (hvals : vals.length = t.rows.length) (hne : ∀ k ∈ ks, k ≠ n) :
    keysOf (appendCol t n vals) ks = keysOf t ks := by
  show (List.zipWith (fun r v => r ++ [v]) t.rows vals).map
      (fun r => keyCells (appendCol t n vals).cols r ks) = t.rows.map _
  rw [List.map_zipWith]
  rw [zipWith_congr_mem _ (fun r _ => keyCells t.cols r ks) t.rows vals ?_,
    zipWith_fst_fun _ t.rows vals hvals.symm]
  intro r hr v _
  rw [appendCol_cols]
  unfold keyCells
  apply List.map_congr_left
  intro k hk
  exact cellAt_append_one t.cols r n k v (hlen r hr).symm (hne k hk)

theorem getCol_appendCol_self (t : Table) (n : String) (vals : List Cell)
    (hlen : ∀ r ∈ t.rows, r.length = t.cols.length)
    (hvals : vals.length = t.rows.length) (hfresh : n ∉ t.cols) :
    getCol (appendCol t n vals) n = vals := by
  show (List.zipWith (fun r v => r ++ [v]) t.rows vals).map
      (fun r => cellAt (appendCol t n vals).cols r n) = vals
  rw [List.map_zipWith]
  rw [zipWith_congr_mem _ (fun _ v => v) t.rows vals ?_,
    zipWith_snd_fun t.rows vals hvals.symm]
  intro r hr v _
  rw [appendCol_cols]
  exact cellAt_append_self t.cols r n v (hlen r hr).symm hfresh

theorem getCol_appendCol_ne (t : Table) (n : String) (vals : List Cell)
    (c : String) (hlen : ∀ r ∈ t.rows, r.length = t.cols.length)
    (hvals : vals.length = t.rows.length) (hne : c ≠ n) :
    getCol (appendCol t n vals) c = getCol t c := by
  show (List.zipWith (fun r v => r ++ [v]) t.rows vals).map
      (fun r => cellAt (appendCol t n vals).cols r c) = t.rows.map _
  rw [List.map_zipWith]
  rw [zipWith_congr_mem _ (fun r _ => cellAt t.cols r c) t.rows vals ?_,
    zipWith_fst_fun _ t.rows vals hvals.symm]
  intro r hr v _
  rw [appendCol_cols]
  exact cellAt_append_one t.cols r n c v (hlen r hr).symm hne

theorem winPctSeries_getD (xs : List Cell) (n : Nat) (hn : n < xs.length) :
    (winPctSeries xs).getD n none =
      (if ((xs.take (n + 1)).filter (fun v => v.isSome)).length = 0 then none
       else some (Val.num (((1 / 2 : Rat)
          * ((xs.take (n + 1)).filter (fun v => toNum v == some 0)).length
          + ((xs.take (n + 1)).filter (fun v =>
              match toNum v with | some q => decide (0 < q) | none => false)).length)
        / ((xs.take (n + 1)).filter (fun v => v.isSome)).length))) := by
  unfold winPctSeries
  rw [List.getD_eq_getElem?_getD, List.getElem?_map, List.getElem?_range hn]
  rfl

theorem shiftSeries_getD (lag : Nat) (xs : List Cell) (n : Nat)
    (hn : n < xs.length) :
    (shiftSeries lag xs).getD n none
      = if n < lag then none else xs.getD (n - lag) none := by
  unfold shiftSeries
  rw [List.getD_eq_getElem?_getD, List.getElem?_map, List.getElem?_range hn]
  rfl

theorem lastWkByeSeries_getD (xs : List Cell) (n : Nat) (hn : n < xs.length) :
    (lastWkByeSeries xs).getD n none
      = some (Val.bool (if n < 1 then (none : Cell) else xs.getD (n - 1) none).isNone) := by
  unfold lastWkByeSeries
  have hlen : n < (shiftSeries 1 xs).length := by
    unfold shiftSeries
    rw [List.length_map, List.length_range]
    exact hn
  rw [List.getD_eq_getElem?_getD, List.getElem?_map,
    List.getElem?_eq_getElem hlen]
  have hval : (shiftSeries 1 xs)[n] = if n < 1 then (none : Cell) else xs.getD (n - 1) none := by
    have := shiftSeries_getD 1 xs n hn
    rw [List.getD_eq_getElem?_getD, List.getElem?_eq_getElem hlen] at this
    exact this
  rw [hval]
  rfl

theorem map_getD {α β : Type} (l : List α) (f : α → β) (j : Nat) (d : α) (e : β)
    (hj : j < l.length) : (l.map f).getD j e = f (l.getD j d) := by
  rw [List.getD_eq_getElem?_getD, List.getElem?_map, List.getElem?_eq_getElem hj,
    List.getD_eq_getElem?_getD, List.getElem?_eq_getElem hj]
  rfl

theorem getD_take (l : List Cell) (m j : Nat) (hj : j < m) :
    (l.take m).getD j none = l.getD j none := by
  rw [List.getD_eq_getElem?_getD, List.getD_eq_getElem?_getD,
    List.getElem?_take_of_lt hj]

theorem getD_take_gen {α : Type} (l : List α) (m j : Nat) (d : α) (hj : j < m) :
    (l.take m).getD j d = l.getD j d := by
  rw [List.getD_eq_getElem?_getD, List.getD_eq_getElem?_getD,
    List.getElem?_take_of_lt hj]

theorem filterMap_congr_mem {α β : Type} (f g : α → Option β) :
    ∀ (l : List α), (∀ a ∈ l, f a = g a) → l.filterMap f = l.filterMap g := by
  intro l
  induction l with
  | nil => intro _; rfl
  | cons a t ih =>
    intro h
    rw [List.filterMap_cons, List.filterMap_cons,
      h a (List.mem_cons_self _ _), ih (fun x hx => h x (List.mem_cons_of_mem _ hx))]

theorem filterMap_id_map (l : List Cell) : (l.map toNum).filterMap id = l.filterMap toNum := by
  induction l with
  | nil => rfl
  | cons a t ih =>
    rw [List.map_cons, List.filterMap_cons, List.filterMap_cons, ih]
    rfl

theorem rollingMeanSeries_getD (w m : Nat) (xs : List Cell) (n : Nat)
    (hn : n < xs.length) :
    (rollingMeanSeries w m xs).getD n none
      = (windowMean w m (xs.map toNum) n).map Val.num := by
  unfold rollingMeanSeries
  rw [List.getD_eq_getElem?_getD, List.getElem?_map, List.getElem?_range hn]
  rfl

theorem ewmaSeries_getD (com : Rat) (xs : List Cell) (n : Nat)
    (hn : n < xs.length) :
    (ewmaSeries com xs).getD n none
      = (ewmaAt (1 / (1 + com)) (xs.map toNum) n).map Val.num := by
  unfold ewmaSeries
  rw [List.getD_eq_getElem?_getD, List.getElem?_map, List.getElem?_range hn]
  rfl

/-- The rolling mean at the last position of a prefix, written over the
prefix itself. -/
theorem rollingClaim_eq (w m : Nat) (ser : List Cell) (r : Nat) (pre : List Cell)
    (hp : ser.take (r + 1) = pre) (hlen : pre.length = r + 1) :
    (windowMean w m (ser.map toNum) r).map Val.num
      = (if m ≤ ((pre.drop (pre.length - w)).filterMap toNum).length
            ∧ 0 < ((pre.drop (pre.length - w)).filterMap toNum).length
         then some (Val.num (((pre.drop (pre.length - w)).filterMap toNum).sum
            / ((((pre.drop (pre.length - w)).filterMap toNum).length : Nat) : Rat)))
         else none) := by
  unfold windowMean
  rw [← List.map_take, hp, hlen, ← List.map_drop, filterMap_id_map]
  split
  · rfl
  · rfl

/-- The `adjust=True` EWMA at the last position of a prefix, written
over the prefix itself. -/
theorem ewmaAt_take (alpha : Rat) (ser : List Cell) (r : Nat) (pre : List Cell)
    (hp : ser.take (r + 1) = pre) (hlen : pre.length = r + 1) :
    ewmaAt alpha (ser.map toNum) r = ewmaAt alpha (pre.map toNum) (pre.length - 1) := by
  have hidx : pre.length - 1 = r := by rw [hlen]; rfl
  rw [hidx]
  have harg : ∀ j ∈ List.range (r + 1),
      ((ser.map toNum).getD j none).map (fun x => ((1 - alpha) ^ (r - j), x))
        = ((pre.map toNum).getD j none).map (fun x => ((1 - alpha) ^ (r - j), x)) := by
    intro j hj
    have hjr : j < r + 1 := List.mem_range.mp hj
    have hpre : (pre.map toNum) = (ser.map toNum).take (r + 1) := by
      rw [← hp, List.map_take]
    rw [hpre, getD_take_gen _ _ _ _ hjr]
  unfold ewmaAt
  rw [filterMap_congr_mem _ _ _ harg]

/-- The group rows up to `i` split as earlier group rows plus row `i`
itself (row `i` always matches its own key). -/
theorem groupPrefix_last (df : Table) (ks : List String) (i : Nat)
    (hi : i < df.rows.length) :
    groupPrefix df ks i
      = (df.rows.take i).filter (fun r => keyCells df.cols r ks
          == keyCells df.cols (df.rows.getD i []) ks) ++ [df.rows.getD i []] := by
  unfold groupPrefix
  rw [List.take_succ, List.getElem?_eq_getElem hi, List.filter_append]
  congr 1
  have hgd : df.rows.getD i [] = df.rows[i] := by
    rw [List.getD_eq_getElem?_getD, List.getElem?_eq_getElem hi]
    rfl
  rw [← hgd]
  simp

theorem setWeek1False_cols (t : Table) : (setWeek1False t).cols = t.cols := rfl

theorem setWeek1False_rows_getD (t : Table) (i : Nat) (hi : i < t.rows.length) :
    (setWeek1False t).rows.getD i []
      = (if toNum (cellAt t.cols (t.rows.getD i []) "Week") == some 1
         then setCell t.cols (t.rows.getD i []) "LastWkBye" (some (Val.bool false))
         else t.rows.getD i []) := by
  show (t.rows.map _).getD i [] = _
  rw [List.getD_eq_getElem?_getD, List.getElem?_map, List.getElem?_eq_getElem hi,
    List.getD_eq_getElem?_getD, List.getElem?_eq_getElem hi]
  rfl

theorem getD_mem_of_lt {l : List Row} {i : Nat} (hi : i < l.length) :
    l.getD i [] ∈ l := by
  rw [List.getD_eq_getElem?_getD, List.getElem?_eq_getElem hi]
  exact List.getElem_mem hi

theorem keysOf_length (t : Table) (ks : List String) :
    (keysOf t ks).length = t.rows.length := List.length_map ..

theorem keysOf_getD (t : Table) (ks : List String) (i : Nat)
    (hi : i < t.rows.length) :
    (keysOf t ks).getD i [] = keyCells t.cols (t.rows.getD i []) ks := by
  unfold keysOf
  rw [List.getD_eq_getElem?_getD, List.getElem?_map, List.getElem?_eq_getElem hi,
    List.getD_eq_getElem?_getD, List.getElem?_eq_getElem hi]
  rfl

theorem sortTable_appendCol2 (df : Table) (n1 n2 : String) (v1 v2 : List Cell)
    (hlen : ∀ r ∈ df.rows, r.length = df.cols.length)
    (hsorted : df.rows.Pairwise (fun a b => rowLE df.cols a b = true))
    (hT1 : "Team" ≠ n1) (hS1 : "Season" ≠ n1) (hW1 : "Week" ≠ n1)
    (hT2 : "Team" ≠ n2) (hS2 : "Season" ≠ n2) (hW2 : "Week" ≠ n2) :
    sortTable (appendCol (appendCol df n1 v1) n2 v2)
      = appendCol (appendCol df n1 v1) n2 v2 := by
  have hsorted2 := appendCol_pairwise (appendCol df n1 v1) n2 v2
    (appendCol_hlen df n1 v1 hlen) hT2 hS2 hW2
    (appendCol_pairwise df n1 v1 hlen hT1 hS1 hW1 hsorted)
  show (⟨(appendCol (appendCol df n1 v1) n2 v2).cols,
      sortRows _ (appendCol (appendCol df n1 v1) n2 v2).rows⟩ : Table) = _
  rw [sortRows_eq_of_sorted _ _ hsorted2]

theorem sortTable_cols (t : Table) : (sortTable t).cols = t.cols := rfl

theorem sortTable_rows (t : Table) : (sortTable t).rows = sortRows t.cols t.rows := rfl

theorem sortRows_length (cols : List String) (rs : List Row) :
    (sortRows cols rs).length = rs.length :=
  (List.perm_insertionSort _ rs).length_eq

theorem mem_sortRows {cols : List String} {rs : List Row} (x : Row)
    (hx : x ∈ sortRows cols rs) : x ∈ rs :=
  (List.perm_insertionSort _ rs).subset hx

theorem orderedInsert_map_mem {α β : Type} (f : α → β) (ra : α → α → Prop)
    [DecidableRel ra] (rb : β → β → Prop) [DecidableRel rb] (a : α) :
    ∀ (l : List α), (∀ b ∈ l, (ra a b ↔ rb (f a) (f b))) →
    (List.orderedInsert ra a l).map f = List.orderedInsert rb (f a) (l.map f) := by
  intro l
  induction l with
  | nil => intro _; rfl
  | cons b t ih =>
    intro h
    simp only [List.orderedInsert, List.map_cons]
    by_cases hab : ra a b
    · rw [if_pos hab, if_pos ((h b (List.mem_cons_self _ _)).mp hab)]
      rfl
    · rw [if_neg hab, if_neg (fun hr => hab ((h b (List.mem_cons_self _ _)).mpr hr)),
        List.map_cons, ih (fun x hx => h x (List.mem_cons_of_mem _ hx))]

theorem insertionSort_map_mem {α β : Type} (f : α → β) (ra : α → α → Prop)
    [DecidableRel ra] (rb : β → β → Prop) [DecidableRel rb] :
    ∀ (l : List α), (∀ a ∈ l, ∀ b ∈ l, (ra a b ↔ rb (f a) (f b))) →
    (l.insertionSort ra).map f = (l.map f).insertionSort rb := by
  intro l
  induction l with
  | nil => intro _; rfl
  | cons a t ih =>
    intro h
    simp only [List.insertionSort, List.map_cons]
    rw [← ih (fun x hx y hy => h x (List.mem_cons_of_mem _ hx) y
      (List.mem_cons_of_mem _ hy))]
    apply orderedInsert_map_mem
    intro b hb
    have hbt : b ∈ t := (List.perm_insertionSort ra t).subset hb
    exact h a (List.mem_cons_self _ _) b (List.mem_cons_of_mem _ hbt)

theorem sortRows_map_take (cols2 cols : List String) (l : List Row) (n : Nat)
    (hcomp : ∀ a ∈ l, ∀ b ∈ l, rowLE cols2 a b = rowLE cols (a.take n) (b.take n)) :
    (sortRows cols2 l).map (fun r => r.take n)
      = sortRows cols (l.map (fun r => r.take n)) := by
  apply insertionSort_map_mem
  intro a ha b hb
  exact iff_of_eq (congrArg (· = true) (hcomp a ha b hb))

/-- Projecting appended-column rows back to a prefix of the columns. -/
theorem appendCol_proj_le (t : Table) (nm : String) (vals : List Cell) (k : Nat)
    (hvals : vals.length = t.rows.length) (hk : ∀ r ∈ t.rows, k ≤ r.length) :
    (appendCol t nm vals).rows.map (fun r => r.take k)
      = t.rows.map (fun r => r.take k) := by
  show (List.zipWith (fun r v => r ++ [v]) t.rows vals).map _ = _
  rw [List.map_zipWith,
    zipWith_congr_mem _ (fun r _ => r.take k) t.rows vals
      (fun r hr v _ => List.take_append_of_le_length (hk r hr)),
    zipWith_fst_fun _ t.rows vals hvals.symm]

theorem map_take_id (l : List Row) (n : Nat) (h : ∀ r ∈ l, r.length = n) :
    l.map (fun r => r.take n) = l := by
  have h1 : l.map (fun r => r.take n) = l.map id :=
    List.map_congr_left (fun r hr => by rw [← h r hr]; exact List.take_length r)
  rw [h1, List.map_id]

theorem setCell_take_front (cols : List String) (r : Row) (c : String) (v : Cell)
    (n : Nat) (hn : ∀ x ∈ cols.take n, ¬ x = c) (hlen : cols.length = r.length) :
    (setCell cols r c v).take n = r.take n := by
  unfold setCell
  rw [← List.map_take]
  have h0 : (cols.zip r).take n = (cols.take n).zip (r.take n) := List.take_zipWith
  rw [h0]
  have h1 : ((cols.take n).zip (r.take n)).map
        (fun p => if p.1 == c then v else p.2)
      = ((cols.take n).zip (r.take n)).map Prod.snd :=
    List.map_congr_left (fun p hp => by
      have hpc : ¬ p.1 = c := hn p.1 (List.of_mem_zip hp).1
      simp [hpc])
  rw [h1, List.map_snd_zip]
  rw [List.length_take, List.length_take, hlen]

/-! ### The sort comparator is a total preorder -/

theorem lexLE_refl {α β : Type} (la : α → α → Bool) (lb : β → β → Bool)
    (ha : ∀ x, la x x = true) (hb : ∀ y, lb y y = true) (p : α × β) :
    lexLE la lb p p = true := by
  unfold lexLE
  rw [if_pos (ha p.1), if_pos (ha p.1)]
  exact hb p.2

theorem lexLE_trans {α β : Type} (la : α → α → Bool) (lb : β → β → Bool)
    (hat : ∀ x y z, la x y = true → la y z = true → la x z = true)
    (hbt : ∀ x y z, lb x y = true → lb y z = true → lb x z = true)
    (p q r : α × β) (h1 : lexLE la lb p q = true) (h2 : lexLE la lb q r = true) :
    lexLE la lb p r = true := by
  unfold lexLE at h1 h2 ⊢
  by_cases hpq : la p.1 q.1 = true
  · by_cases hqr : la q.1 r.1 = true
    · rw [if_pos (hat _ _ _ hpq hqr)]
      by_cases hrp : la r.1 p.1 = true
      · rw [if_pos hrp]
        have hqp : la q.1 p.1 = true := hat _ _ _ hqr hrp
        have hrq : la r.1 q.1 = true := hat _ _ _ hrp hpq
        rw [if_pos hpq, if_pos hqp] at h1
        rw [if_pos hqr, if_pos hrq] at h2
        exact hbt _ _ _ h1 h2
      · rw [if_neg hrp]
    · rw [if_neg hqr] at h2
      exact absurd h2 Bool.false_ne_true
  · rw [if_neg hpq] at h1
    exact absurd h1 Bool.false_ne_true

theorem lexLE_total {α β : Type} (la : α → α → Bool) (lb : β → β → Bool)
    (hato : ∀ x y, la x y = true ∨ la y x = true)
    (hbto : ∀ x y, lb x y = true ∨ lb y x = true)
    (p q : α × β) : lexLE la lb p q = true ∨ lexLE la lb q p = true := by
  by_cases hpq : la p.1 q.1 = true
  · by_cases hqp : la q.1 p.1 = true
    · rcases hbto p.2 q.2 with hb | hb
      · left
        unfold lexLE
        rw [if_pos hpq, if_pos hqp]
        exact hb
      · right
        unfold lexLE
        rw [if_pos hqp, if_pos hpq]
        exact hb
    · left
      unfold lexLE
      rw [if_pos hpq, if_neg hqp]
  · have hqp : la q.1 p.1 = true := (hato p.1 q.1).resolve_left hpq
    right
    unfold lexLE
    rw [if_pos hqp, if_neg hpq]

/-- When the first components are equal, a lexicographic comparison is
the comparison of the second components. -/
theorem lexLE_fst_eq {α β : Type} (la : α → α → Bool) (lb : β → β → Bool)
    (ha : ∀ x, la x x = true) (p q : α × β) (h : p.1 = q.1) :
    lexLE la lb p q = lb p.2 q.2 := by
  unfold lexLE
  rw [h, if_pos (ha q.1), if_pos (ha q.1)]

theorem charListLE_refl : ∀ l : List Char, charListLE l l = true := by
  intro l
  induction l with
  | nil => rfl
  | cons a t ih =>
    unfold charListLE
    rw [if_neg (Nat.lt_irrefl a.toNat), if_neg (Nat.lt_irrefl a.toNat)]
    exact ih

theorem charListLE_trans : ∀ l1 l2 l3 : List Char, charListLE l1 l2 = true →
    charListLE l2 l3 = true → charListLE l1 l3 = true := by
  intro l1
  induction l1 with
  | nil => intro l2 l3 _ _; rfl
  | cons a t ih =>
    intro l2 l3 h12 h23
    cases l2 with
    | nil => simp [charListLE] at h12
    | cons b u =>
      cases l3 with
      | nil => simp [charListLE] at h23
      | cons c v =>
        simp only [charListLE] at h12 h23 ⊢
        by_cases hab : a.toNat < b.toNat
        · by_cases hbc : b.toNat < c.toNat
          · rw [if_pos (Nat.lt_trans hab hbc)]
          · by_cases hcb : c.toNat < b.toNat
            · rw [if_neg hbc, if_pos hcb] at h23
              exact absurd h23 Bool.false_ne_true
            · rw [if_pos (show a.toNat < c.toNat by omega)]
        · by_cases hba : b.toNat < a.toNat
          · rw [if_neg hab, if_pos hba] at h12
            exact absurd h12 Bool.false_ne_true
          · by_cases hbc : b.toNat < c.toNat
            · rw [if_pos (show a.toNat < c.toNat by omega)]
            · by_cases hcb : c.toNat < b.toNat
              · rw [if_neg hbc, if_pos hcb] at h23
                exact absurd h23 Bool.false_ne_true
              · rw [if_neg (show ¬ a.toNat < c.toNat by omega),
                  if_neg (show ¬ c.toNat < a.toNat by omega)]
                rw [if_neg hab, if_neg hba] at h12
                rw [if_neg hbc, if_neg hcb] at h23
                exact ih u v h12 h23

theorem charListLE_total : ∀ l1 l2 : List Char,
    charListLE l1 l2 = true ∨ charListLE l2 l1 = true := by
  intro l1
  induction l1 with
  | nil => intro l2; left; rfl
  | cons a t ih =>
    intro l2
    cases l2 with
    | nil => right; rfl
    | cons b u =>
      by_cases hab : a.toNat < b.toNat
      · left
        simp only [charListLE]
        rw [if_pos hab]
      · by_cases hba : b.toNat < a.toNat
        · right
          simp only [charListLE]
          rw [if_pos hba]
        · rcases ih u with h | h
          · left
            simp only [charListLE]
            rw [if_neg hab, if_neg hba]
            exact h
          · right
            simp only [charListLE]
            rw [if_neg hba, if_neg hab]
            exact h

theorem strLE_refl : ∀ s : String, strLE s s = true :=
  fun s => charListLE_refl s.data

theorem strLE_trans : ∀ x y z : String, strLE x y = true → strLE y z = true →
    strLE x z = true :=
  fun x y z => charListLE_trans x.data y.data z.data

theorem strLE_total : ∀ x y : String, strLE x y = true ∨ strLE y x = true :=
  fun x y => charListLE_total x.data y.data

theorem tripLE_refl : ∀ t : Nat × Rat × String, tripLE t t = true :=
  fun t => lexLE_refl
    (fun a b : Nat => decide (a ≤ b))
    (lexLE (fun a b : Rat => decide (a ≤ b)) strLE)
    (fun x => decide_eq_true (Nat.le_refl x))
    (fun y => lexLE_refl
      (fun a b : Rat => decide (a ≤ b)) strLE
      (fun a => decide_eq_true (le_refl a)) strLE_refl y) t

theorem tripLE_trans : ∀ a b c : Nat × Rat × String, tripLE a b = true →
    tripLE b c = true → tripLE a c = true :=
  fun a b c h1 h2 => lexLE_trans
    (fun a b : Nat => decide (a ≤ b))
    (lexLE (fun a b : Rat => decide (a ≤ b)) strLE)
    (fun x y z hx hy => decide_eq_true
      (Nat.le_trans (of_decide_eq_true hx) (of_decide_eq_true hy)))
    (fun x y z hx hy => lexLE_trans
      (fun a b : Rat => decide (a ≤ b)) strLE
      (fun a1 b1 c1 ha1 hb1 => decide_eq_true
        (le_trans (of_decide_eq_true ha1) (of_decide_eq_true hb1)))
      strLE_trans x y z hx hy)
    a b c h1 h2

theorem tripLE_total : ∀ a b : Nat × Rat × String,
    tripLE a b = true ∨ tripLE b a = true :=
  fun a b => lexLE_total
    (fun a b : Nat => decide (a ≤ b))
    (lexLE (fun a b : Rat => decide (a ≤ b)) strLE)
    (fun x y => (Nat.le_total x y).imp decide_eq_true decide_eq_true)
    (fun x y => lexLE_total
      (fun a b : Rat => decide (a ≤ b)) strLE
      (fun a1 b1 => (le_total a1 b1).imp decide_eq_true decide_eq_true)
      strLE_total x y)
    a b

theorem cellLE_refl : ∀ x : Cell, cellLE x x = true :=
  fun x => tripLE_refl (cellKey x)

theorem cellLE_trans : ∀ a b c : Cell, cellLE a b = true → cellLE b c = true →
    cellLE a c = true :=
  fun a b c h1 h2 => tripLE_trans (cellKey a) (cellKey b) (cellKey c) h1 h2

theorem cellLE_total : ∀ a b : Cell, cellLE a b = true ∨ cellLE b a = true :=
  fun a b => tripLE_total (cellKey a) (cellKey b)

theorem swLE_refl : ∀ x : Cell × Cell, swLE x x = true :=
  fun x => lexLE_refl _ _ cellLE_refl cellLE_refl x

theorem swLE_trans : ∀ a b c : Cell × Cell, swLE a b = true → swLE b c = true →
    swLE a c = true :=
  fun a b c h1 h2 => lexLE_trans _ _ cellLE_trans cellLE_trans a b c h1 h2

theorem swLE_total : ∀ a b : Cell × Cell, swLE a b = true ∨ swLE b a = true :=
  fun a b => lexLE_total _ _ cellLE_total cellLE_total a b

theorem keyLE_trans : ∀ a b c : Cell × Cell × Cell, keyLE a b = true →
    keyLE b c = true → keyLE a c = true :=
  fun a b c h1 h2 => lexLE_trans _ _ cellLE_trans swLE_trans a b c h1 h2

theorem keyLE_total : ∀ a b : Cell × Cell × Cell,
    keyLE a b = true ∨ keyLE b a = true :=
  fun a b => lexLE_total _ _ cellLE_total swLE_total a b

theorem rowLE_trans (cols : List String) (r s t : Row)
    (h1 : rowLE cols r s = true) (h2 : rowLE cols s t = true) :
    rowLE cols r t = true :=
  keyLE_trans _ _ _ h1 h2

theorem rowLE_total (cols : List String) (r s : Row) :
    rowLE cols r s = true ∨ rowLE cols s r = true :=
  keyLE_total _ _

/-! ### Locating a row by key (`idxFind`, `valAtKey`) -/

theorem idxFind_map {α β : Type} (g : α → β) (p : β → Bool) :
    ∀ l : List α, idxFind p (l.map g) = idxFind (fun x => p (g x)) l := by
  intro l
  induction l with
  | nil => rfl
  | cons a t ih =>
    simp only [List.map_cons, idxFind]
    rw [ih]

theorem idxFind_congr_mem {α : Type} (p q : α → Bool) :
    ∀ l : List α, (∀ x ∈ l, p x = q x) → idxFind p l = idxFind q l := by
  intro l
  induction l with
  | nil => intro _; rfl
  | cons a t ih =>
    intro h
    simp only [idxFind]
    rw [h a (List.mem_cons_self _ _),
      ih (fun x hx => h x (List.mem_cons_of_mem _ hx))]

theorem idxFind_lt {α : Type} (p : α → Bool) :
    ∀ (l : List α) (i : Nat), idxFind p l = some i → i < l.length := by
  intro l
  induction l with
  | nil => intro i h; simp [idxFind] at h
  | cons a t ih =>
    intro i h
    simp only [idxFind] at h
    by_cases hp : p a = true
    · rw [if_pos hp] at h
      cases h
      exact Nat.succ_pos _
    · rw [if_neg hp] at h
      cases hj : idxFind p t with
      | none => rw [hj] at h; simp at h
      | some j =>
        rw [hj] at h
        have h2 : some (j + 1) = some i := h
        cases h2
        exact Nat.succ_lt_succ (ih j hj)

theorem idxFind_found {α : Type} (p : α → Bool) (d : α) :
    ∀ (l : List α) (i : Nat), idxFind p l = some i → p (l.getD i d) = true := by
  intro l
  induction l with
  | nil => intro i h; simp [idxFind] at h
  | cons a t ih =>
    intro i h
    simp only [idxFind] at h
    by_cases hp : p a = true
    · rw [if_pos hp] at h
      cases h
      exact hp
    · rw [if_neg hp] at h
      cases hj : idxFind p t with
      | none => rw [hj] at h; simp at h
      | some j =>
        rw [hj] at h
        have h2 : some (j + 1) = some i := h
        cases h2
        exact ih j hj

theorem idxFind_zipWith {α β γ : Type} (f : α → β → γ) (p : γ → Bool) (q : α → Bool) :
    ∀ (l : List α) (v : List β), l.length = v.length →
    (∀ a ∈ l, ∀ b ∈ v, p (f a b) = q a) →
    idxFind p (List.zipWith f l v) = idxFind q l := by
  intro l
  induction l with
  | nil => intro v _ _; rfl
  | cons a t ih =>
    intro v hlen h
    cases v with
    | nil => simp at hlen
    | cons b vt =>
      simp only [List.zipWith_cons_cons, idxFind]
      rw [h a (List.mem_cons_self _ _) b (List.mem_cons_self _ _),
        ih vt (by simpa using hlen) (fun x hx y hy =>
          h x (List.mem_cons_of_mem _ hx) y (List.mem_cons_of_mem _ hy))]

theorem getD_mem_gen {α : Type} {l : List α} {i : Nat} (hi : i < l.length) (d : α) :
    l.getD i d ∈ l := by
  rw [List.getD_eq_getElem?_getD, List.getElem?_eq_getElem hi]
  exact List.getElem_mem hi

theorem getD_of_length_le {α : Type} (l : List α) (d : α) (n : Nat)
    (h : l.length ≤ n) : l.getD n d = d := by
  rw [List.getD_eq_getElem?_getD, List.getElem?_eq_none h]
  rfl

/-! ### The three series transforms use no future information -/

theorem shiftSeries_length (lag : Nat) (xs : List Cell) :
    (shiftSeries lag xs).length = xs.length := by
  unfold shiftSeries
  rw [List.length_map, List.length_range]

theorem rollingMeanSeries_length (w m : Nat) (xs : List Cell) :
    (rollingMeanSeries w m xs).length = xs.length := by
  unfold rollingMeanSeries
  rw [List.length_map, List.length_range]

theorem ewmaSeries_length (com : Rat) (xs : List Cell) :
    (ewmaSeries com xs).length = xs.length := by
  unfold ewmaSeries
  rw [List.length_map, List.length_range]

theorem shiftSeries_prefixDep (lag : Nat) : prefixDep (shiftSeries lag) := by
  intro u v n hlen htake
  by_cases hn : n < u.length
  · have hn2 : n < v.length := hlen ▸ hn
    rw [shiftSeries_getD lag u n hn, shiftSeries_getD lag v n hn2]
    by_cases hl : n < lag
    · rw [if_pos hl, if_pos hl]
    · rw [if_neg hl, if_neg hl,
        ← getD_take u (n + 1) (n - lag) (by omega),
        ← getD_take v (n + 1) (n - lag) (by omega), htake]
  · rw [getD_of_length_le _ _ _ (by rw [shiftSeries_length]; omega),
      getD_of_length_le _ _ _ (by rw [shiftSeries_length]; omega)]

theorem windowMean_congr (w m : Nat) (xs ys : List (Option Rat)) (n : Nat)
    (h : xs.take (n + 1) = ys.take (n + 1)) :
    windowMean w m xs n = windowMean w m ys n := by
  unfold windowMean
  rw [h]

theorem rollingMeanSeries_prefixDep (w m : Nat) :
    prefixDep (rollingMeanSeries w m) := by
  intro u v n hlen htake
  by_cases hn : n < u.length
  · have hn2 : n < v.length := hlen ▸ hn
    rw [rollingMeanSeries_getD w m u n hn, rollingMeanSeries_getD w m v n hn2,
      windowMean_congr w m (u.map toNum) (v.map toNum) n
        (by rw [← List.map_take, ← List.map_take, htake])]
  · rw [getD_of_length_le _ _ _ (by rw [rollingMeanSeries_length]; omega),
      getD_of_length_le _ _ _ (by rw [rollingMeanSeries_length]; omega)]

theorem ewmaAt_congr (alpha : Rat) (xs ys : List (Option Rat)) (n : Nat)
    (h : xs.take (n + 1) = ys.take (n + 1)) :
    ewmaAt alpha xs n = ewmaAt alpha ys n := by
  have harg : ∀ j ∈ List.range (n + 1),
      ((xs.getD j none).map (fun x => ((1 - alpha) ^ (n - j), x)))
        = ((ys.getD j none).map (fun x => ((1 - alpha) ^ (n - j), x))) := by
    intro j hj
    have hjn : j < n + 1 := List.mem_range.mp hj
    rw [← getD_take_gen xs (n + 1) j none hjn, h, getD_take_gen ys (n + 1) j none hjn]
  unfold ewmaAt
  rw [filterMap_congr_mem _ _ _ harg]

theorem ewmaSeries_prefixDep (com : Rat) : prefixDep (ewmaSeries com) := by
  intro u v n hlen htake
  by_cases hn : n < u.length
  · have hn2 : n < v.length := hlen ▸ hn
    rw [ewmaSeries_getD com u n hn, ewmaSeries_getD com v n hn2,
      ewmaAt_congr (1 / (1 + com)) (u.map toNum) (v.map toNum) n
        (by rw [← List.map_take, ← List.map_take, htake])]
  · rw [getD_of_length_le _ _ _ (by rw [ewmaSeries_length]; omega),
      getD_of_length_le _ _ _ (by rw [ewmaSeries_length]; omega)]

/-! ### Sorting two key-aligned row lists in step -/

theorem zipSort_fst (cols : List String) (A B : List Row)
    (hlen : A.length = B.length) :
    ((A.zip B).insertionSort (fun p q => rowLE cols p.1 q.1 = true)).map Prod.fst
      = sortRows cols A := by
  have h1 := insertionSort_map_mem (Prod.fst : Row × Row → Row)
    (fun p q => rowLE cols p.1 q.1 = true)
    (fun a b => rowLE cols a b = true)
    (A.zip B) (fun a _ b _ => Iff.rfl)
  rw [List.map_fst_zip A B hlen.le] at h1
  exact h1

theorem zipSort_snd (cols : List String) (A B : List Row)
    (hlen : A.length = B.length)
    (hkeys : ∀ p ∈ A.zip B, keyTSW cols p.1 = keyTSW cols p.2) :
    ((A.zip B).insertionSort (fun p q => rowLE cols p.1 q.1 = true)).map Prod.snd
      = sortRows cols B := by
  have h1 := insertionSort_map_mem (Prod.snd : Row × Row → Row)
    (fun p q => rowLE cols p.1 q.1 = true)
    (fun a b => rowLE cols a b = true)
    (A.zip B)
    (fun a ha b hb => by
      show rowLE cols a.1 b.1 = true ↔ rowLE cols a.2 b.2 = true
      unfold rowLE
      rw [hkeys a ha, hkeys b hb])
  rw [List.map_snd_zip A B hlen.ge] at h1
  exact h1

theorem zipSort_pairwise (cols : List String) (Z : List (Row × Row)) :
    (Z.insertionSort (fun p q => rowLE cols p.1 q.1 = true)).Pairwise
      (fun p q => rowLE cols p.1 q.1 = true) := by
  haveI : IsTrans (Row × Row) (fun p q => rowLE cols p.1 q.1 = true) :=
    ⟨fun a b c h1 h2 => rowLE_trans cols a.1 b.1 c.1 h1 h2⟩
  haveI : IsTotal (Row × Row) (fun p q => rowLE cols p.1 q.1 = true) :=
    ⟨fun a b => rowLE_total cols a.1 b.1⟩
  exact List.sorted_insertionSort _ Z

theorem selectKey_map_gen {α : Type} (rows : List α) (kf : α → List Cell)
    (vf : α → Cell) (k : List Cell) :
    selectKey k (rows.map kf) (rows.map vf)
      = (rows.filter (fun r => kf r == k)).map vf := by
  unfold selectKey
  rw [List.zip_map' kf vf rows, List.filter_map, List.map_map]
  rfl

/-! ### Reading a derived column back out of an appended table -/

theorem valAtKey_appendCol_some (t : Table) (nm : String) (vals : List Cell)
    (K : Cell × Cell × Cell) (i : Nat)
    (hlen1 : ∀ r ∈ t.rows, r.length = t.cols.length)
    (hvals : vals.length = t.rows.length)
    (hfresh : nm ∉ t.cols)
    (hT : "Team" ≠ nm) (hS : "Season" ≠ nm) (hW : "Week" ≠ nm)
    (hfind : idxFind (fun r => keyTSW t.cols r == K) t.rows = some i) :
    valAtKey (appendCol t nm vals) K nm = vals.getD i none := by
  have h0 : idxFind (fun r => keyTSW (appendCol t nm vals).cols r == K)
      (appendCol t nm vals).rows
      = idxFind (fun r => keyTSW t.cols r == K) t.rows := by
    show idxFind _ (List.zipWith (fun r v => r ++ [v]) t.rows vals) = _
    exact idxFind_zipWith (fun r v => r ++ [v]) _ _ t.rows vals hvals.symm
      (fun a ha b _ => by
        show (keyTSW (t.cols ++ [nm]) (a ++ [b]) == K) = (keyTSW t.cols a == K)
        rw [keyTSW_append_one t.cols a nm b (hlen1 a ha).symm hT hS hW])
  unfold valAtKey
  rw [h0, hfind]
  have hi : i < t.rows.length := idxFind_lt _ t.rows i hfind
  show cellAt (appendCol t nm vals).cols ((appendCol t nm vals).rows.getD i []) nm
    = vals.getD i none
  rw [appendCol_rows_getD t nm vals i hvals hi]
  show cellAt (t.cols ++ [nm]) (t.rows.getD i [] ++ [vals.getD i none]) nm = _
  exact cellAt_append_self t.cols _ nm _ (hlen1 _ (getD_mem_gen hi [])).symm hfresh

theorem valAtKey_appendCol_none (t : Table) (nm : String) (vals : List Cell)
    (K : Cell × Cell × Cell)
    (hlen1 : ∀ r ∈ t.rows, r.length = t.cols.length)
    (hvals : vals.length = t.rows.length)
    (hT : "Team" ≠ nm) (hS : "Season" ≠ nm) (hW : "Week" ≠ nm)
    (hfind : idxFind (fun r => keyTSW t.cols r == K) t.rows = none) :
    valAtKey (appendCol t nm vals) K nm = none := by
  have h0 : idxFind (fun r => keyTSW (appendCol t nm vals).cols r == K)
      (appendCol t nm vals).rows
      = idxFind (fun r => keyTSW t.cols r == K) t.rows := by
    show idxFind _ (List.zipWith (fun r v => r ++ [v]) t.rows vals) = _
    exact idxFind_zipWith (fun r v => r ++ [v]) _ _ t.rows vals hvals.symm
      (fun a ha b _ => by
        show (keyTSW (t.cols ++ [nm]) (a ++ [b]) == K) = (keyTSW t.cols a == K)
        rw [keyTSW_append_one t.cols a nm b (hlen1 a ha).symm hT hS hW])
  unfold valAtKey
  rw [h0, hfind]

/-- The heart of the C3 invariance: the aligned group-apply output at
the row found for key `K` agrees between two cell-wise key-aligned,
sorted zipped row lists that agree on every same-team row at or before
`K`, for any series transform using no future information. -/
theorem groupApply_valCongr (cols : List String) (SZ : List (Row × Row))
    (c : String) (f : List Cell → List Cell) (K : Cell × Cell × Cell)
    (hf : prefixDep f)
    (hZP : SZ.Pairwise (fun p q => rowLE cols p.1 q.1 = true))
    (hagreeS : ∀ p ∈ SZ, (keyTSW cols p.1).1 = K.1 →
      swLE (keyTSW cols p.1).2 K.2 = true → p.1 = p.2)
    (i0 : Nat)
    (hJ : idxFind (fun p => keyTSW cols p.1 == K) SZ = some i0) :
    (groupApply (SZ.map (fun p => keyCells cols p.1 ["Team"]))
        (SZ.map (fun p => cellAt cols p.1 c)) f).getD i0 none
      = (groupApply (SZ.map (fun p => keyCells cols p.1 ["Team"]))
          (SZ.map (fun p => cellAt cols p.2 c)) f).getD i0 none := by
  have hi0 : i0 < SZ.length := idxFind_lt _ SZ i0 hJ
  have hiK : i0 < (SZ.map (fun p => keyCells cols p.1 ["Team"])).length := by
    rw [List.length_map]
    exact hi0
  rw [groupApply_getD (SZ.map (fun p => keyCells cols p.1 ["Team"]))
      (SZ.map (fun p => cellAt cols p.1 c)) f i0 hiK,
    groupApply_getD (SZ.map (fun p => keyCells cols p.1 ["Team"]))
      (SZ.map (fun p => cellAt cols p.2 c)) f i0 hiK]
  set k0 := (SZ.map (fun p => keyCells cols p.1 ["Team"])).getD i0 [] with hk0
  have hfound' : (keyTSW cols (SZ.getD i0 ([], [])).1 == K) = true :=
    idxFind_found (fun p => keyTSW cols p.1 == K) ([], []) SZ i0 hJ
  have hz0K : keyTSW cols (SZ.getD i0 ([], [])).1 = K := eq_of_beq hfound'
  have hkD : k0 = [K.1] := by
    rw [hk0, map_getD SZ _ i0 ([], []) [] hi0]
    show [cellAt cols (SZ.getD i0 ([], [])).1 "Team"] = [K.1]
    have hc : cellAt cols (SZ.getD i0 ([], [])).1 "Team" = K.1 :=
      congrArg Prod.fst hz0K
    rw [hc]
  have hlen12 : (SZ.map (fun p => keyCells cols p.1 ["Team"])).length
      = (SZ.map (fun p => cellAt cols p.1 c)).length := by
    rw [List.length_map, List.length_map]
  have hlen12b : (SZ.map (fun p => keyCells cols p.1 ["Team"])).length
      = (SZ.map (fun p => cellAt cols p.2 c)).length := by
    rw [List.length_map, List.length_map]
  have hlenS : (selectKey k0 (SZ.map (fun p => keyCells cols p.1 ["Team"]))
        (SZ.map (fun p => cellAt cols p.1 c))).length
      = (selectKey k0 (SZ.map (fun p => keyCells cols p.1 ["Team"]))
          (SZ.map (fun p => cellAt cols p.2 c))).length := by
    rw [selectKey_length _ _ _ hlen12, selectKey_length _ _ _ hlen12b]
  have htake1 := selectKey_take (SZ.map (fun p => keyCells cols p.1 ["Team"]))
    (SZ.map (fun p => cellAt cols p.1 c)) i0 k0 hk0.symm hlen12 hiK
  have htake2 := selectKey_take (SZ.map (fun p => keyCells cols p.1 ["Team"]))
    (SZ.map (fun p => cellAt cols p.2 c)) i0 k0 hk0.symm hlen12b hiK
  have hsel : selectKey k0
        ((SZ.map (fun p => keyCells cols p.1 ["Team"])).take (i0 + 1))
        ((SZ.map (fun p => cellAt cols p.1 c)).take (i0 + 1))
      = selectKey k0
          ((SZ.map (fun p => keyCells cols p.1 ["Team"])).take (i0 + 1))
          ((SZ.map (fun p => cellAt cols p.2 c)).take (i0 + 1)) := by
    simp only [← List.map_take]
    rw [selectKey_map_gen (SZ.take (i0 + 1)) (fun p => keyCells cols p.1 ["Team"])
        (fun p => cellAt cols p.1 c) k0,
      selectKey_map_gen (SZ.take (i0 + 1)) (fun p => keyCells cols p.1 ["Team"])
        (fun p => cellAt cols p.2 c) k0]
    apply List.map_congr_left
    intro p hpf
    obtain ⟨hpt, hpk⟩ := List.mem_filter.mp hpf
    have hpk' : (keyCells cols p.1 ["Team"] == k0) = true := hpk
    have hpkK : [cellAt cols p.1 "Team"] = [K.1] := (eq_of_beq hpk').trans hkD
    injection hpkK with hfst htl
    have hfstP : (keyTSW cols p.1).1 = K.1 := hfst
    have hsplit : SZ.take (i0 + 1) = SZ.take i0 ++ [SZ.getD i0 ([], [])] := by
      rw [List.take_succ, List.getElem?_eq_getElem hi0]
      have hg : SZ.getD i0 ([], []) = SZ[i0] := by
        rw [List.getD_eq_getElem?_getD, List.getElem?_eq_getElem hi0]
        rfl
      rw [hg]
      rfl
    rw [hsplit] at hpt
    rcases List.mem_append.mp hpt with hpe | hpl
    · have hpair : (SZ.take (i0 + 1)).Pairwise
          (fun p q => rowLE cols p.1 q.1 = true) :=
        List.Pairwise.sublist (List.take_sublist (i0 + 1) SZ) hZP
      rw [hsplit] at hpair
      have hcross := (List.pairwise_append.mp hpair).2.2
      have hcmp : rowLE cols p.1 (SZ.getD i0 ([], [])).1 = true :=
        hcross p hpe _ (List.mem_singleton.mpr rfl)
      have hkey : keyLE (keyTSW cols p.1)
          (keyTSW cols (SZ.getD i0 ([], [])).1) = true := hcmp
      rw [hz0K] at hkey
      have hkey2 : lexLE cellLE swLE (keyTSW cols p.1) K = true := hkey
      rw [lexLE_fst_eq cellLE swLE cellLE_refl (keyTSW cols p.1) K hfstP] at hkey2
      have hp12 : p.1 = p.2 :=
        hagreeS p (List.mem_of_mem_take hpe) hfstP hkey2
      show cellAt cols p.1 c = cellAt cols p.2 c
      rw [hp12]
    · have hpz : p = SZ.getD i0 ([], []) := List.mem_singleton.mp hpl
      have hfstP2 : (keyTSW cols p.1).1 = K.1 := by
        rw [hpz]
        exact congrArg Prod.fst hz0K
      have hswP : swLE (keyTSW cols p.1).2 K.2 = true := by
        rw [hpz, hz0K]
        exact swLE_refl K.2
      have hpS : p ∈ SZ := by
        rw [hpz]
        exact getD_mem_gen hi0 ([], [])
      have hp12 : p.1 = p.2 := hagreeS p hpS hfstP2 hswP
      show cellAt cols p.1 c = cellAt cols p.2 c
      rw [hp12]
  exact hf _ _ _ hlenS (htake1.trans (hsel.trans htake2.symm))

/-- The `valAtKey`-level invariance for one `df.groupby('Team')[c].apply(f)`
column: changing rows of other teams, or same-team rows strictly after
`K` in `(Season, Week)` order, does not change the derived value at `K`. -/
theorem groupCol_valAtKey_congr (cols : List String) (A B : List Row)
    (nm c : String) (f : List Cell → List Cell) (K : Cell × Cell × Cell)
    (hf : prefixDep f)
    (hlen : A.length = B.length)
    (hlen1 : ∀ r ∈ A, r.length = cols.length)
    (hlen2 : ∀ r ∈ B, r.length = cols.length)
    (hfresh : nm ∉ cols)
    (hT : "Team" ≠ nm) (hS : "Season" ≠ nm) (hW : "Week" ≠ nm)
    (hkeys : ∀ p ∈ A.zip B, keyTSW cols p.1 = keyTSW cols p.2)
    (hagree : ∀ p ∈ A.zip B, (keyTSW cols p.1).1 = K.1 →
      swLE (keyTSW cols p.1).2 K.2 = true → p.1 = p.2) :
    valAtKey (appendCol (sortTable ⟨cols, A⟩) nm
        (groupApply (keysOf (sortTable ⟨cols, A⟩) ["Team"])
          (getCol (sortTable ⟨cols, A⟩) c) f)) K nm
      = valAtKey (appendCol (sortTable ⟨cols, B⟩) nm
          (groupApply (keysOf (sortTable ⟨cols, B⟩) ["Team"])
            (getCol (sortTable ⟨cols, B⟩) c) f)) K nm := by
  have hA := zipSort_fst cols A B hlen
  have hB := zipSort_snd cols A B hlen hkeys
  have hZP := zipSort_pairwise cols (A.zip B)
  have hlen1s : ∀ r ∈ (sortTable ⟨cols, A⟩).rows,
      r.length = (sortTable ⟨cols, A⟩).cols.length :=
    fun r hr => hlen1 r (mem_sortRows r hr)
  have hlen2s : ∀ r ∈ (sortTable ⟨cols, B⟩).rows,
      r.length = (sortTable ⟨cols, B⟩).cols.length :=
    fun r hr => hlen2 r (mem_sortRows r hr)
  have hvals1 : (groupApply (keysOf (sortTable ⟨cols, A⟩) ["Team"])
        (getCol (sortTable ⟨cols, A⟩) c) f).length
      = (sortTable ⟨cols, A⟩).rows.length := by
    rw [groupApply_length, keysOf_length]
  have hvals2 : (groupApply (keysOf (sortTable ⟨cols, B⟩) ["Team"])
        (getCol (sortTable ⟨cols, B⟩) c) f).length
      = (sortTable ⟨cols, B⟩).rows.length := by
    rw [groupApply_length, keysOf_length]
  have hidx1 : idxFind (fun r => keyTSW (sortTable ⟨cols, A⟩).cols r == K)
      (sortTable ⟨cols, A⟩).rows
      = idxFind (fun p => keyTSW cols p.1 == K)
          ((A.zip B).insertionSort (fun p q => rowLE cols p.1 q.1 = true)) := by
    show idxFind (fun r => keyTSW cols r == K) (sortRows cols A) = _
    rw [← hA, idxFind_map]
  have hidx2 : idxFind (fun r => keyTSW (sortTable ⟨cols, B⟩).cols r == K)
      (sortTable ⟨cols, B⟩).rows
      = idxFind (fun p => keyTSW cols p.1 == K)
          ((A.zip B).insertionSort (fun p q => rowLE cols p.1 q.1 = true)) := by
    show idxFind (fun r => keyTSW cols r == K) (sortRows cols B) = _
    rw [← hB, idxFind_map]
    exact idxFind_congr_mem _ _ _ (fun p hp => by
      show (keyTSW cols p.2 == K) = (keyTSW cols p.1 == K)
      rw [hkeys p ((List.perm_insertionSort _ _).subset hp)])
  cases hJ : idxFind (fun p => keyTSW cols p.1 == K)
      ((A.zip B).insertionSort (fun p q => rowLE cols p.1 q.1 = true)) with
  | none =>
    rw [valAtKey_appendCol_none (sortTable ⟨cols, A⟩) nm _ K hlen1s hvals1
        hT hS hW (hidx1.trans hJ),
      valAtKey_appendCol_none (sortTable ⟨cols, B⟩) nm _ K hlen2s hvals2
        hT hS hW (hidx2.trans hJ)]
  | some i0 =>
    rw [valAtKey_appendCol_some (sortTable ⟨cols, A⟩) nm _ K i0 hlen1s hvals1
        hfresh hT hS hW (hidx1.trans hJ),
      valAtKey_appendCol_some (sortTable ⟨cols, B⟩) nm _ K i0 hlen2s hvals2
        hfresh hT hS hW (hidx2.trans hJ)]
    have hK1 : keysOf (sortTable ⟨cols, A⟩) ["Team"]
        = ((A.zip B).insertionSort (fun p q => rowLE cols p.1 q.1 = true)).map
            (fun p => keyCells cols p.1 ["Team"]) := by
      show (sortRows cols A).map (fun r => keyCells cols r ["Team"]) = _
      rw [← hA, List.map_map]
      rfl
    have hX1 : getCol (sortTable ⟨cols, A⟩) c
        = ((A.zip B).insertionSort (fun p q => rowLE cols p.1 q.1 = true)).map
            (fun p => cellAt cols p.1 c) := by
      show (sortRows cols A).map (fun r => cellAt cols r c) = _
      rw [← hA, List.map_map]
      rfl
    have hK2 : keysOf (sortTable ⟨cols, B⟩) ["Team"]
        = ((A.zip B).insertionSort (fun p q => rowLE cols p.1 q.1 = true)).map
            (fun p => keyCells cols p.1 ["Team"]) := by
      show (sortRows cols B).map (fun r => keyCells cols r ["Team"]) = _
      rw [← hB, List.map_map]
      apply List.map_congr_left
      intro p hp
      show keyCells cols p.2 ["Team"] = keyCells cols p.1 ["Team"]
      have hTeq : cellAt cols p.1 "Team" = cellAt cols p.2 "Team" :=
        congrArg Prod.fst (hkeys p ((List.perm_insertionSort _ _).subset hp))
      show [cellAt cols p.2 "Team"] = [cellAt cols p.1 "Team"]
      rw [hTeq]
    have hX2 : getCol (sortTable ⟨cols, B⟩) c
        = ((A.zip B).insertionSort (fun p q => rowLE cols p.1 q.1 = true)).map
            (fun p => cellAt cols p.2 c) := by
      show (sortRows cols B).map (fun r => cellAt cols r c) = _
      rw [← hB, List.map_map]
      rfl
    rw [hK1, hX1, hK2, hX2]
    exact groupApply_valCongr cols
      ((A.zip B).insertionSort (fun p q => rowLE cols p.1 q.1 = true)) c f K hf hZP
      (fun p hp => hagree p ((List.perm_insertionSort _ _).subset hp)) i0 hJ

/-! ### Lookup through a column rename, and join counting -/

theorem find?_map_mem {α β : Type} (g : α → β) (p : β → Bool) (q : α → Bool) :
    ∀ l : List α, (∀ x ∈ l, p (g x) = q x) →
    (l.map g).find? p = (l.find? q).map g := by
  intro l
  induction l with
  | nil => intro _; rfl
  | cons a t ih =>
    intro h
    by_cases hq : q a = true
    · rw [List.map_cons,
        List.find?_cons_of_pos _ ((h a (List.mem_cons_self _ _)).trans hq),
        List.find?_cons_of_pos _ hq]
      rfl
    · rw [List.map_cons,
        List.find?_cons_of_neg _ (by rw [h a (List.mem_cons_self _ _)]; exact hq),
        List.find?_cons_of_neg _ hq]
      exact ih (fun x hx => h x (List.mem_cons_of_mem _ hx))

theorem zip_map_fst_pair {α β γ : Type} (f : α → γ) :
    ∀ (l : List α) (m : List β),
    (l.map f).zip m = (l.zip m).map (fun p => (f p.1, p.2)) := by
  intro l
  induction l with
  | nil => intro m; rfl
  | cons a t ih =>
    intro m
    cases m with
    | nil => rfl
    | cons b u =>
      simp only [List.map_cons, List.zip_cons_cons]
      rw [ih]

/-- Looking a column up after a rename `cols.map nm` is looking the
matching source column up, when exactly the source columns map to the
target name. -/
theorem cellAt_rename (cols : List String) (r : Row) (nm : String → String)
    (tgt src : String)
    (h : ∀ c ∈ cols, (nm c == tgt) = (c == src)) :
    cellAt (cols.map nm) r tgt = cellAt cols r src := by
  unfold cellAt
  rw [zip_map_fst_pair nm cols r,
    find?_map_mem (fun p : String × Cell => (nm p.1, p.2)) (fun p => p.1 == tgt)
      (fun p => p.1 == src) (cols.zip r)
      (fun x hx => h x.1 (List.of_mem_zip hx).1)]
  cases hf : (cols.zip r).find? (fun p => p.1 == src) with
  | none => rfl
  | some p => rfl

theorem sum_ones {α : Type} : ∀ l : List α, (l.map (fun _ => (1 : Nat))).sum = l.length := by
  intro l
  induction l with
  | nil => rfl
  | cons a t ih => simp [ih, Nat.add_comm]

theorem listFlat_singleton {α β : Type} (f : α → List β) (d : β) :
    ∀ l : List α, (∀ a ∈ l, (f a).length = 1) →
    listFlat l f = l.map (fun a => (f a).getD 0 d) := by
  intro l
  induction l with
  | nil => intro _; rfl
  | cons a t ih =>
    intro h
    have h1 := h a (List.mem_cons_self _ _)
    show f a ++ listFlat t f = (f a).getD 0 d :: t.map (fun a => (f a).getD 0 d)
    cases hfa : f a with
    | nil => rw [hfa] at h1; simp at h1
    | cons b bs =>
      rw [hfa] at h1
      have hbs : bs = [] := List.length_eq_zero.mp (by simpa using h1)
      subst hbs
      show b :: listFlat t f = b :: t.map (fun a => (f a).getD 0 d)
      rw [ih (fun x hx => h x (List.mem_cons_of_mem _ hx))]

/-- A filter whose hits all share one image under an injective-on-the-list
view keeps at most one element. -/
theorem filter_length_le_one {α β : Type} (f : α → β) (p : α → Bool) :
    ∀ l : List α, (l.map f).Nodup →
    (∀ x ∈ l, ∀ y ∈ l, p x = true → p y = true → f x = f y) →
    (l.filter p).length ≤ 1 := by
  intro l
  induction l with
  | nil => intro _ _; simp
  | cons a t ih =>
    intro hnd hsame
    rw [List.map_cons, List.nodup_cons] at hnd
    by_cases hpa : p a = true
    · rw [List.filter_cons_of_pos hpa]
      have ht : t.filter p = [] := by
        rw [List.filter_eq_nil_iff]
        intro x hx hpx
        have hfx : f x = f a := hsame x (List.mem_cons_of_mem _ hx) a
          (List.mem_cons_self _ _) hpx hpa
        exact hnd.1 (hfx ▸ List.mem_map_of_mem f hx)
      rw [ht]
      simp
    · rw [List.filter_cons_of_neg hpa]
      exact ih hnd.2 (fun x hx y hy => hsame x (List.mem_cons_of_mem _ hx) y
        (List.mem_cons_of_mem _ hy))

theorem subAssoc_len (cols : List String) (r : Row) (q : String → Bool)
    (h : cols.length = r.length) :
    (cols.filter q).length
      = (((cols.zip r).filter (fun p => q p.1)).map Prod.snd).length := by
  have hfst : (cols.zip r).map Prod.fst = cols := List.map_fst_zip cols r h.le
  calc (cols.filter q).length
      = (((cols.zip r).map Prod.fst).filter q).length := by rw [hfst]
    _ = (((cols.zip r).filter (fun p => q p.1)).map Prod.fst).length := by
        rw [filter_map_fst]
    _ = ((cols.zip r).filter (fun p => q p.1)).length := by rw [List.length_map]
    _ = (((cols.zip r).filter (fun p => q p.1)).map Prod.snd).length := by
        rw [List.length_map]

/-! ### The renamed column names of `from_byteam_to_bygame` -/

theorem strA_beq (c : String) :
    (("A_" ++ c == "Season") = false) ∧ (("A_" ++ c == "Week") = false)
    ∧ (("A_" ++ c == "Home") = false) ∧ (("A_" ++ c == "Away") = false) := by
  refine ⟨?_, ?_, ?_, ?_⟩ <;> rw [beq_eq_false_iff_ne] <;> intro h
  · have hd : ('A' :: '_' :: c.data) = ['S', 'e', 'a', 's', 'o', 'n'] := by
      have h2 := congrArg String.data h
      rw [String.data_append] at h2
      exact h2
    injection hd with h1 _
    exact absurd h1 (by decide)
  · have hd : ('A' :: '_' :: c.data) = ['W', 'e', 'e', 'k'] := by
      have h2 := congrArg String.data h
      rw [String.data_append] at h2
      exact h2
    injection hd with h1 _
    exact absurd h1 (by decide)
  · have hd : ('A' :: '_' :: c.data) = ['H', 'o', 'm', 'e'] := by
      have h2 := congrArg String.data h
      rw [String.data_append] at h2
      exact h2
    injection hd with h1 _
    exact absurd h1 (by decide)
  · have hd : ('A' :: '_' :: c.data) = ['A', 'w', 'a', 'y'] := by
      have h2 := congrArg String.data h
      rw [String.data_append] at h2
      exact h2
    injection hd with h1 hd2
    injection hd2 with h2 _
    exact absurd h2 (by decide)

theorem strH_beq (c : String) :
    (("H_" ++ c == "Season") = false) ∧ (("H_" ++ c == "Week") = false)
    ∧ (("H_" ++ c == "Home") = false) ∧ (("H_" ++ c == "Away") = false) := by
  refine ⟨?_, ?_, ?_, ?_⟩ <;> rw [beq_eq_false_iff_ne] <;> intro h
  · have hd : ('H' :: '_' :: c.data) = ['S', 'e', 'a', 's', 'o', 'n'] := by
      have h2 := congrArg String.data h
      rw [String.data_append] at h2
      exact h2
    injection hd with h1 _
    exact absurd h1 (by decide)
  · have hd : ('H' :: '_' :: c.data) = ['W', 'e', 'e', 'k'] := by
      have h2 := congrArg String.data h
      rw [String.data_append] at h2
      exact h2
    injection hd with h1 _
    exact absurd h1 (by decide)
  · have hd : ('H' :: '_' :: c.data) = ['H', 'o', 'm', 'e'] := by
      have h2 := congrArg String.data h
      rw [String.data_append] at h2
      exact h2
    injection hd with h1 hd2
    injection hd2 with h2 _
    exact absurd h2 (by decide)
  · have hd : ('H' :: '_' :: c.data) = ['A', 'w', 'a', 'y'] := by
      have h2 := congrArg String.data h
      rw [String.data_append] at h2
      exact h2
    injection hd with h1 _
    exact absurd h1 (by decide)

/-- On a byteam column set (no `Home`/`Away` columns), exactly the
expected source column of the away partition maps to each merge-key
name. -/
theorem awayName_cond (cc : String) (hH : cc ≠ "Home") (hA : cc ≠ "Away") :
    ((awayName cc == "Season") = (cc == "Season"))
    ∧ ((awayName cc == "Week") = (cc == "Week"))
    ∧ ((awayName cc == "Home") = (cc == "Opponent"))
    ∧ ((awayName cc == "Away") = (cc == "Team")) := by
  by_cases h1 : cc ∈ common_cols
  · have h1' : cc = "Season" ∨ cc = "Week" ∨ cc = "Home" ∨ cc = "Away" := by
      simpa [common_cols] using h1
    rcases h1' with rfl | rfl | rfl | rfl
    · exact ⟨by decide, by decide, by decide, by decide⟩
    · exact ⟨by decide, by decide, by decide, by decide⟩
    · exact absurd rfl hH
    · exact absurd rfl hA
  · by_cases h2 : cc = "Team"
    · subst h2
      exact ⟨by decide, by decide, by decide, by decide⟩
    · by_cases h3 : cc = "Opponent"
      · subst h3
        exact ⟨by decide, by decide, by decide, by decide⟩
      · have he : awayName cc = "A_" ++ cc := by
          unfold awayName
          rw [if_neg h1, if_neg h2, if_neg h3]
        have hcS : (cc == "Season") = false := by
          rw [beq_eq_false_iff_ne]
          intro hh
          exact h1 (by rw [hh]; decide)
        have hcW : (cc == "Week") = false := by
          rw [beq_eq_false_iff_ne]
          intro hh
          exact h1 (by rw [hh]; decide)
        have hcT : (cc == "Team") = false := beq_eq_false_iff_ne.mpr h2
        have hcO : (cc == "Opponent") = false := beq_eq_false_iff_ne.mpr h3
        refine ⟨?_, ?_, ?_, ?_⟩
        · rw [he, hcS, (strA_beq cc).1]
        · rw [he, hcW, (strA_beq cc).2.1]
        · rw [he, hcO, (strA_beq cc).2.2.1]
        · rw [he, hcT, (strA_beq cc).2.2.2]

/-- Same for the home partition (`Team ↦ Home`, `Opponent ↦ Away`). -/
theorem homeName_cond (dm : List String) (cc : String)
    (hH : cc ≠ "Home") (hA : cc ≠ "Away") :
    ((homeName dm cc == "Season") = (cc == "Season"))
    ∧ ((homeName dm cc == "Week") = (cc == "Week"))
    ∧ ((homeName dm cc == "Home") = (cc == "Team"))
    ∧ ((homeName dm cc == "Away") = (cc == "Opponent")) := by
  by_cases h1 : cc ∈ common_cols
  · have h1' : cc = "Season" ∨ cc = "Week" ∨ cc = "Home" ∨ cc = "Away" := by
      simpa [common_cols] using h1
    rcases h1' with rfl | rfl | rfl | rfl
    · exact ⟨rfl, rfl, rfl, rfl⟩
    · exact ⟨rfl, rfl, rfl, rfl⟩
    · exact absurd rfl hH
    · exact absurd rfl hA
  · by_cases h2 : cc = "Team"
    · subst h2
      exact ⟨rfl, rfl, rfl, rfl⟩
    · by_cases h3 : cc = "Opponent"
      · subst h3
        exact ⟨rfl, rfl, rfl, rfl⟩
      · have hcS : (cc == "Season") = false := by
          rw [beq_eq_false_iff_ne]
          intro hh
          exact h1 (by rw [hh]; decide)
        have hcW : (cc == "Week") = false := by
          rw [beq_eq_false_iff_ne]
          intro hh
          exact h1 (by rw [hh]; decide)
        have hcT : (cc == "Team") = false := beq_eq_false_iff_ne.mpr h2
        have hcO : (cc == "Opponent") = false := beq_eq_false_iff_ne.mpr h3
        have hcH : (cc == "Home") = false := beq_eq_false_iff_ne.mpr hH
        have hcA : (cc == "Away") = false := beq_eq_false_iff_ne.mpr hA
        by_cases h4 : cc ∈ dm
        · have he : homeName dm cc = cc := by
            unfold homeName
            rw [if_neg h1, if_neg h2, if_neg h3, if_pos h4]
          refine ⟨?_, ?_, ?_, ?_⟩
          · rw [he]
          · rw [he]
          · rw [he, hcH, hcT]
          · rw [he, hcA, hcO]
        · have he : homeName dm cc = "H_" ++ cc := by
            unfold homeName
            rw [if_neg h1, if_neg h2, if_neg h3, if_neg h4]
          refine ⟨?_, ?_, ?_, ?_⟩
          · rw [he, hcS, (strH_beq cc).1]
          · rw [he, hcW, (strH_beq cc).2.1]
          · rw [he, hcT, (strH_beq cc).2.2.1]
          · rw [he, hcO, (strH_beq cc).2.2.2]

/-- Home-partition lookup: renamed target column `tgt` of a transformed
home row reads the original row's `src` column. -/
theorem homeRow_cellAt (dm : List String) (cols : List String) (r : Row)
    (hlenr : r.length = cols.length)
    (tgt src : String)
    (hts : ∀ cc ∈ cols, (homeName dm cc == tgt) = (cc == src))
    (hqa : (!(src == "AtHome")) = true) :
    cellAt ((cols.filter (fun x => !(x == "AtHome"))).map (homeName dm))
      (((cols.zip r).filter (fun p => !(p.1 == "AtHome"))).map Prod.snd) tgt
      = cellAt cols r src :=
  (cellAt_rename (cols.filter (fun x => !(x == "AtHome")))
      (((cols.zip r).filter (fun p => !(p.1 == "AtHome"))).map Prod.snd)
      (homeName dm) tgt src
      (fun cc hcc => hts cc (List.mem_of_mem_filter hcc))).trans
    (cellAt_subAssoc cols r (fun x => !(x == "AtHome")) src hlenr.symm hqa)

/-- Away-partition lookup: renamed target column `tgt` of a doubly
transformed (AtHome-deleted, `dont_mirror`-dropped, renamed) away row
reads the original row's `src` column. -/
theorem awayRow_cellAt (dm : List String) (cols : List String) (r : Row)
    (hlenr : r.length = cols.length)
    (tgt src : String)
    (hts : ∀ cc ∈ cols, (awayName cc == tgt) = (cc == src))
    (hqm : (!mirrorDrop dm src) = true)
    (hqa : (!(src == "AtHome")) = true) :
    cellAt (((cols.filter (fun x => !(x == "AtHome"))).filter
        (fun c => !mirrorDrop dm c)).map awayName)
      ((((cols.filter (fun x => !(x == "AtHome"))).zip
          (((cols.zip r).filter (fun p => !(p.1 == "AtHome"))).map Prod.snd)).filter
          (fun p => !mirrorDrop dm p.1)).map Prod.snd) tgt
      = cellAt cols r src := by
  have s1 := cellAt_rename
    ((cols.filter (fun x => !(x == "AtHome"))).filter (fun c => !mirrorDrop dm c))
    ((((cols.filter (fun x => !(x == "AtHome"))).zip
        (((cols.zip r).filter (fun p => !(p.1 == "AtHome"))).map Prod.snd)).filter
        (fun p => !mirrorDrop dm p.1)).map Prod.snd)
    awayName tgt src
    (fun cc hcc => hts cc (List.mem_of_mem_filter (List.mem_of_mem_filter hcc)))
  have s2 := cellAt_subAssoc (cols.filter (fun x => !(x == "AtHome")))
    (((cols.zip r).filter (fun p => !(p.1 == "AtHome"))).map Prod.snd)
    (fun c => !mirrorDrop dm c) src
    (subAssoc_len cols r (fun x => !(x == "AtHome")) hlenr.symm) hqm
  have s3 := cellAt_subAssoc cols r (fun x => !(x == "AtHome")) src hlenr.symm hqa
  exact s1.trans (s2.trans s3)

/-- The merge key of a transformed home row, in original-row terms. -/
theorem homeRow_key (dm : List String) (cols : List String) (r : Row)
    (hlenr : r.length = cols.length)
    (hHr : "Home" ∉ cols) (hAr : "Away" ∉ cols) :
    keyCells ((cols.filter (fun x => !(x == "AtHome"))).map (homeName dm))
        (((cols.zip r).filter (fun p => !(p.1 == "AtHome"))).map Prod.snd)
        common_cols
      = [cellAt cols r "Season", cellAt cols r "Week",
         cellAt cols r "Team", cellAt cols r "Opponent"] := by
  have hne : ∀ cc ∈ cols, cc ≠ "Home" ∧ cc ≠ "Away" :=
    fun cc hcc => ⟨fun he => hHr (he ▸ hcc), fun he => hAr (he ▸ hcc)⟩
  simp only [keyCells, common_cols, List.map_cons, List.map_nil]
  rw [homeRow_cellAt dm cols r hlenr "Season" "Season"
      (fun cc hcc => (homeName_cond dm cc (hne cc hcc).1 (hne cc hcc).2).1)
      (by decide),
    homeRow_cellAt dm cols r hlenr "Week" "Week"
      (fun cc hcc => (homeName_cond dm cc (hne cc hcc).1 (hne cc hcc).2).2.1)
      (by decide),
    homeRow_cellAt dm cols r hlenr "Home" "Team"
      (fun cc hcc => (homeName_cond dm cc (hne cc hcc).1 (hne cc hcc).2).2.2.1)
      (by decide),
    homeRow_cellAt dm cols r hlenr "Away" "Opponent"
      (fun cc hcc => (homeName_cond dm cc (hne cc hcc).1 (hne cc hcc).2).2.2.2)
      (by decide)]

/-- The merge key of a transformed away row, in original-row terms. -/
theorem awayRow_key (dm : List String) (cols : List String) (r : Row)
    (hlenr : r.length = cols.length)
    (hHr : "Home" ∉ cols) (hAr : "Away" ∉ cols) :
    keyCells (((cols.filter (fun x => !(x == "AtHome"))).filter
        (fun c => !mirrorDrop dm c)).map awayName)
        ((((cols.filter (fun x => !(x == "AtHome"))).zip
          (((cols.zip r).filter (fun p => !(p.1 == "AtHome"))).map Prod.snd)).filter
          (fun p => !mirrorDrop dm p.1)).map Prod.snd)
        common_cols
      = [cellAt cols r "Season", cellAt cols r "Week",
         cellAt cols r "Opponent", cellAt cols r "Team"] := by
  have hne : ∀ cc ∈ cols, cc ≠ "Home" ∧ cc ≠ "Away" :=
    fun cc hcc => ⟨fun he => hHr (he ▸ hcc), fun he => hAr (he ▸ hcc)⟩
  simp only [keyCells, common_cols, List.map_cons, List.map_nil]
  rw [awayRow_cellAt dm cols r hlenr "Season" "Season"
      (fun cc hcc => (awayName_cond cc (hne cc hcc).1 (hne cc hcc).2).1)
      rfl (by decide),
    awayRow_cellAt dm cols r hlenr "Week" "Week"
      (fun cc hcc => (awayName_cond cc (hne cc hcc).1 (hne cc hcc).2).2.1)
      rfl (by decide),
    awayRow_cellAt dm cols r hlenr "Home" "Opponent"
      (fun cc hcc => (awayName_cond cc (hne cc hcc).1 (hne cc hcc).2).2.2.1)
      rfl (by decide),
    awayRow_cellAt dm cols r hlenr "Away" "Team"
      (fun cc hcc => (awayName_cond cc (hne cc hcc).1 (hne cc hcc).2).2.2.2)
      rfl (by decide)]

/-- The away partition's rows as transforms of the original away rows. -/
theorem awayRenamed_rows (dm : List String) (df : Table) :
    (awayRenamed dm df).rows
      = (df.rows.filter (isAwayRow df.cols)).map (fun r =>
          (((df.cols.filter (fun x => !(x == "AtHome"))).zip
            (((df.cols.zip r).filter (fun p => !(p.1 == "AtHome"))).map
              Prod.snd)).filter
            (fun p => !mirrorDrop dm p.1)).map Prod.snd) := by
  show ((delCol ⟨df.cols, df.rows.filter (isAwayRow df.cols)⟩ "AtHome").rows).map
      (fun rr => (((df.cols.filter (fun x => !(x == "AtHome"))).zip rr).filter
        (fun p => !mirrorDrop dm p.1)).map Prod.snd) = _
  rw [delCol_rows, List.map_map]
  rfl

/-- With at most one key match, a left row's single output row begins
with the left row itself. -/
theorem emit_take (H A : Table) (lr : Row)
    (hble : (matchRows H A common_cols lr).length ≤ 1) (n : Nat)
    (hn : lr.length = n) :
    ((mergeEmit H A common_cols lr).getD 0 []).take n = lr := by
  cases hm : matchRows H A common_cols lr with
  | nil =>
    rw [mergeEmit_nil hm]
    show (lr ++ (A.cols.filter (fun c => decide (c ∉ common_cols))).map
      (fun _ => (none : Cell))).take n = lr
    rw [← hn, List.take_left]
  | cons mrow mtail =>
    have h0 : mtail.length = 0 := by
      have hb2 := hble
      rw [hm] at hb2
      simp only [List.length_cons] at hb2
      omega
    have hm1 : mtail = [] := List.length_eq_zero.mp h0
    subst hm1
    rw [mergeEmit_cons hm]
    show (lr ++ ((A.cols.zip mrow).filter (fun p => decide (p.1 ∉ common_cols))).map
      Prod.snd).take n = lr
    rw [← hn, List.take_left]

/-- A left row with no key match survives once, padded with nulls in
the right-hand non-key columns. -/
theorem emit_bye (H A : Table) (lr : Row)
    (hnone : matchRows H A common_cols lr = []) :
    (mergeEmit H A common_cols lr).getD 0 []
      = lr ++ (A.cols.filter (fun c => decide (c ∉ common_cols))).map
          (fun _ => (none : Cell)) := by
  rw [mergeEmit_nil hnone]
  rfl

/-- Key uniqueness bounds the matches of any home row by one: all away
rows matching one merge key share the `(Season, Week, Team)` triple of
their originating rows, and those triples are distinct. -/
theorem matchRows_le_one (dm : List String) (df : Table) (lr : Row)
    (hlen1 : ∀ r ∈ df.rows, r.length = df.cols.length)
    (hH : "Home" ∉ df.cols) (hA : "Away" ∉ df.cols)
    (hUniq : (df.rows.map (fun r =>
      keyCells df.cols r ["Season", "Week", "Team"])).Nodup) :
    (matchRows (homeRenamed dm df) (awayRenamed dm df) common_cols lr).length
      ≤ 1 := by
  show ((awayRenamed dm df).rows.filter (fun rr =>
      keyCells (awayRenamed dm df).cols rr common_cols
        == keyCells (homeRenamed dm df).cols lr common_cols)).length ≤ 1
  apply filter_length_le_one
    (fun rr => keyCells (awayRenamed dm df).cols rr common_cols)
    (fun rr => keyCells (awayRenamed dm df).cols rr common_cols
        == keyCells (homeRenamed dm df).cols lr common_cols)
    (awayRenamed dm df).rows
  · have hmapK : (awayRenamed dm df).rows.map
        (fun rr => keyCells (awayRenamed dm df).cols rr common_cols)
        = (df.rows.filter (isAwayRow df.cols)).map (fun r =>
            [cellAt df.cols r "Season", cellAt df.cols r "Week",
             cellAt df.cols r "Opponent", cellAt df.cols r "Team"]) := by
      rw [awayRenamed_rows dm df, List.map_map]
      apply List.map_congr_left
      intro r hr
      exact awayRow_key dm df.cols r
        (hlen1 r (List.mem_of_mem_filter hr)) hH hA
    rw [hmapK]
    have hfact : ((df.rows.filter (isAwayRow df.cols)).map (fun r =>
        [cellAt df.cols r "Season", cellAt df.cols r "Week",
         cellAt df.cols r "Opponent", cellAt df.cols r "Team"])).map
          (fun k => [k.getD 0 none, k.getD 1 none, k.getD 3 none])
        = (df.rows.filter (isAwayRow df.cols)).map (fun r =>
            keyCells df.cols r ["Season", "Week", "Team"]) := by
      rw [List.map_map]
      rfl
    have h1 : ((df.rows.filter (isAwayRow df.cols)).map (fun r =>
        keyCells df.cols r ["Season", "Week", "Team"])).Nodup :=
      List.Nodup.sublist (List.Sublist.map _ (List.filter_sublist df.rows)) hUniq
    rw [← hfact] at h1
    exact List.Nodup.of_map _ h1
  · intro x _ y _ hpx hpy
    have hkx : keyCells (awayRenamed dm df).cols x common_cols
        = keyCells (homeRenamed dm df).cols lr common_cols := eq_of_beq hpx
    have hky : keyCells (awayRenamed dm df).cols y common_cols
        = keyCells (homeRenamed dm df).cols lr common_cols := eq_of_beq hpy
    exact hkx.trans hky.symm

/-! ## The claims -/

/-- C9: when no row is both viable (no null model feature) and future
(unobserved outcome, non-null opponent), the run reports the
informational message and still returns, with an empty prediction set
(the guard in `make_predictions.py` only prints; nothing raises or
exits). -/
theorem C9_emptyPredictionSet (model : List Row → List Rat) (df : Table)
    (feats : List String) (h : predictionInput df feats = []) :
    (runPrediction model df feats).messages
        = ["No viable data available for prediction."]
    ∧ (runPrediction model df feats).predictions = [] := by
  constructor <;> simp [runPrediction, h]

theorem C9_witness :
    predictionInput tblC9 ["Home", "H_LastWkBye"] = []
    ∧ ((runPrediction (fun rs => rs.map (fun _ => (1 / 2 : Rat))) tblC9
          ["Home", "H_LastWkBye"]).messages
        = ["No viable data available for prediction."]
      ∧ (runPrediction (fun rs => rs.map (fun _ => (1 / 2 : Rat))) tblC9
          ["Home", "H_LastWkBye"]).predictions = []) :=
  ⟨by decide,
   C9_emptyPredictionSet (fun rs => rs.map (fun _ => (1 / 2 : Rat))) tblC9
     ["Home", "H_LastWkBye"] (by decide)⟩

/-- C6, the claim as stated is false: on a byteam table with a
duplicated `(Season, Week, Team)` triple (here `(2015, 1, "B")` twice),
`from_byteam_to_bygame` signals nothing and returns a table in which
the single home row has exploded into two output rows (one per
matching away row). -/
theorem C6_counterexample :
    ¬ (tblC6.rows.map (fun r =>
        keyCells tblC6.cols r ["Season", "Week", "Team"])).Nodup
    ∧ (tblC6.rows.filter (isHomeRow tblC6.cols)).length = 1
    ∧ (from_byteam_to_bygame tblC6 true []).rows.length = 2 := by
  refine ⟨by decide, by decide, by decide⟩

/-- C6 amended: `from_byteam_to_bygame` does not check key uniqueness;
the left join emits one output row per matching home-away pair (at
least one per home row), so duplicated `(Season, Week, Team)` triples
silently produce a row explosion. -/
theorem C6_amended_thm (df : Table) (dont_mirror : List String) :
    (from_byteam_to_bygame df true dont_mirror).rows.length
      = ((homeRenamed dont_mirror df).rows.map (fun lr => max 1
          (matchRows (homeRenamed dont_mirror df) (awayRenamed dont_mirror df)
            common_cols lr).length)).sum := by
  have hout : from_byteam_to_bygame df true dont_mirror
      = mergeLeft (homeRenamed dont_mirror df) (awayRenamed dont_mirror df)
          common_cols := rfl
  rw [hout]
  show (listFlat (homeRenamed dont_mirror df).rows _).length = _
  rw [listFlat_length]
  congr 1
  apply List.map_congr_left
  intro lr _
  exact mergeEmit_length _ _ _ lr

/-- C2, the claim as stated is false: in a sorted byteam table whose
`(Team, Season)` group starts at week 2, the group's first row gets
`LastWkBye = True` (the shifted spread is the null introduced by the
shift, and only rows with `Week == 1` are forced to `False`), not the
claimed coerced `False`. -/
theorem C2_counterexample :
    sortRows tblC2.cols tblC2.rows = tblC2.rows
    ∧ cellAt tblC2.cols (tblC2.rows.getD 0 []) "Week" = vN 2
    ∧ cellAt (add_derived_columns tblC2).cols
        ((add_derived_columns tblC2).rows.getD 0 []) "LastWkBye"
      = some (Val.bool true) := by
  refine ⟨by decide, by decide, by decide⟩

/-- C5, the claim as stated is false: `pd.ewma` is called with its
default `adjust=True` weighting, so on the series `[0, 1]` with
center-of-mass 2 (`alpha = 1/3`) the second value is `3/5`, not the
`alpha*x[1] + (1-alpha)*ewma[0] = 1/3` of the claimed recurrence. -/
theorem C5_counterexample :
    getCol (add_ewma tblC5 ["Points"] "ewma_" 2) "ewma_Points"
      = [some (Val.num 0), some (Val.num (3 / 5))]
    ∧ (getCol (add_ewma tblC5 ["Points"] "ewma_" 2) "ewma_Points").getD 1 none
      ≠ some (Val.num ((1 / (1 + 2) : Rat) * 1 + (1 - 1 / (1 + 2)) * 0)) := by
  refine ⟨by decide, by decide⟩

/-- C4: in a sorted byteam table, `add_derived_columns` sets `WinPct`
at each row to `(0.5 * ties-so-far + wins-so-far) / non-null-spreads-so-far`
over the rows of its `(Team, Season)` group up to and including the
current row, and to null while no non-null spread has been seen. -/
theorem C4_winPct (df : Table)
    (hlen : ∀ r ∈ df.rows, r.length = df.cols.length)
    (hsorted : df.rows.Pairwise (fun a b => rowLE df.cols a b = true))
    (hkeys : ∀ r ∈ df.rows, (cellAt df.cols r "Team").isSome
      ∧ (cellAt df.cols r "Season").isSome)
    (hf1 : "Spread" ∉ df.cols) (hf2 : "WinPct" ∉ df.cols)
    (hf3 : "LastWkBye" ∉ df.cols) :
    ∀ i, i < df.rows.length →
      cellAt (add_derived_columns df).cols
          ((add_derived_columns df).rows.getD i []) "WinPct" = winPctClaim df i := by
  intro i hi
  set s1 := df.rows.map (spreadCell df.cols) with hs1
  set d1 := appendCol df "Spread" s1 with hd1
  set wv := groupApply (keysOf d1 ["Team", "Season"]) (getCol d1 "Spread")
    winPctSeries with hwv
  set d2 := appendCol d1 "WinPct" wv with hd2
  set lv := fillnaFalse (groupApply (keysOf (sortTable d2) ["Team", "Season"])
    (getCol (sortTable d2) "Spread") lastWkByeSeries) with hlv
  have hout : add_derived_columns df
      = setWeek1False (appendCol (sortTable d2) "LastWkBye" lv) := rfl
  have hsort : sortTable d2 = d2 := by
    rw [hd2, hd1]
    exact sortTable_appendCol2 df "Spread" "WinPct" s1 wv hlen hsorted
      (by decide) (by decide) (by decide) (by decide) (by decide) (by decide)
  have hs1len : s1.length = df.rows.length := by rw [hs1, List.length_map]
  have hd1rows : d1.rows.length = df.rows.length := by
    rw [hd1]; exact appendCol_rows_length df "Spread" s1 hs1len
  have hd1hl : ∀ x ∈ d1.rows, x.length = d1.cols.length := by
    rw [hd1]; exact appendCol_hlen df "Spread" s1 hlen
  have hK : keysOf d1 ["Team", "Season"] = keysOf df ["Team", "Season"] := by
    rw [hd1]; exact keysOf_appendCol df "Spread" s1 _ hlen hs1len (by decide)
  have hC : getCol d1 "Spread" = s1 := by
    rw [hd1]; exact getCol_appendCol_self df "Spread" s1 hlen hs1len hf1
  have hwvlen : wv.length = df.rows.length := by
    rw [hwv, groupApply_length, hK, keysOf_length]
  have hd2rows : d2.rows.length = df.rows.length := by
    rw [hd2, appendCol_rows_length d1 "WinPct" wv (by rw [hwvlen, hd1rows])]
    exact hd1rows
  have hd2hl : ∀ x ∈ d2.rows, x.length = d2.cols.length := by
    rw [hd2]; exact appendCol_hlen d1 "WinPct" wv hd1hl
  have hlvlen : lv.length = d2.rows.length := by
    rw [hlv, hsort]
    show (List.map _ _).length = _
    rw [List.length_map, groupApply_length, keysOf_length]
  rw [hout, hsort]
  have hd4rows : (appendCol d2 "LastWkBye" lv).rows.length = d2.rows.length :=
    appendCol_rows_length d2 "LastWkBye" lv hlvlen
  have hi4 : i < (appendCol d2 "LastWkBye" lv).rows.length := by
    rw [hd4rows, hd2rows]; exact hi
  rw [setWeek1False_cols, setWeek1False_rows_getD _ i hi4]
  have h4 : (appendCol d2 "LastWkBye" lv).rows.getD i []
      = d2.rows.getD i [] ++ [lv.getD i none] :=
    appendCol_rows_getD d2 "LastWkBye" lv i hlvlen (by rw [hd2rows]; exact hi)
  have h2 : d2.rows.getD i [] = d1.rows.getD i [] ++ [wv.getD i none] := by
    rw [hd2]
    exact appendCol_rows_getD d1 "WinPct" wv i (by rw [hwvlen, hd1rows])
      (by rw [hd1rows]; exact hi)
  have hr2len : (d2.rows.getD i []).length = d2.cols.length :=
    hd2hl _ (getD_mem_of_lt (by rw [hd2rows]; exact hi))
  have hwvfresh : "WinPct" ∉ d1.cols := by
    rw [hd1, appendCol_cols]
    intro hmem
    rcases List.mem_append.mp hmem with h | h
    · exact hf2 h
    · simp at h
  have hcell : cellAt (appendCol d2 "LastWkBye" lv).cols
      ((appendCol d2 "LastWkBye" lv).rows.getD i []) "WinPct" = wv.getD i none := by
    rw [h4, appendCol_cols,
      cellAt_append_one d2.cols _ "LastWkBye" "WinPct" _ hr2len.symm (by decide),
      h2]
    have hd1cl : d1.cols.length = (d1.rows.getD i []).length :=
      (hd1hl _ (getD_mem_of_lt (by rw [hd1rows]; exact hi))).symm
    rw [hd2, appendCol_cols]
    exact cellAt_append_self d1.cols _ "WinPct" _ hd1cl hwvfresh
  have hkk : (keysOf df ["Team", "Season"]).getD i []
      = keyCells df.cols (df.rows.getD i []) ["Team", "Season"] :=
    keysOf_getD df _ i hi
  have hklen : (keysOf df ["Team", "Season"]).length = s1.length := by
    rw [keysOf_length, hs1len]
  have hkilen : i < (keysOf df ["Team", "Season"]).length := by
    rw [keysOf_length]; exact hi
  have hserlen : (selectKey (keyCells df.cols (df.rows.getD i []) ["Team", "Season"])
        (keysOf df ["Team", "Season"]) s1).length
      = (keysOf df ["Team", "Season"]).count
          (keyCells df.cols (df.rows.getD i []) ["Team", "Season"]) :=
    selectKey_length _ _ _ hklen
  have hcnt : ((keysOf df ["Team", "Season"]).take (i + 1)).count
        (keyCells df.cols (df.rows.getD i []) ["Team", "Season"])
      = ((keysOf df ["Team", "Season"]).take i).count
          (keyCells df.cols (df.rows.getD i []) ["Team", "Season"]) + 1 :=
    count_take_succ_self _ i _ hkilen hkk
  have hlt : ((keysOf df ["Team", "Season"]).take i).count
        (keyCells df.cols (df.rows.getD i []) ["Team", "Season"])
      < (selectKey (keyCells df.cols (df.rows.getD i []) ["Team", "Season"])
          (keysOf df ["Team", "Season"]) s1).length := by
    rw [hserlen]
    have hsub := List.Sublist.count_le (List.take_sublist (i + 1)
      (keysOf df ["Team", "Season"]))
      (keyCells df.cols (df.rows.getD i []) ["Team", "Season"])
    omega
  have htake : (selectKey (keyCells df.cols (df.rows.getD i []) ["Team", "Season"])
        (keysOf df ["Team", "Season"]) s1).take
        (((keysOf df ["Team", "Season"]).take i).count
          (keyCells df.cols (df.rows.getD i []) ["Team", "Season"]) + 1)
      = selectKey (keyCells df.cols (df.rows.getD i []) ["Team", "Season"])
          ((keysOf df ["Team", "Season"]).take (i + 1)) (s1.take (i + 1)) :=
    selectKey_take _ _ i _ hkk hklen hkilen
  have hselp : selectKey (keyCells df.cols (df.rows.getD i []) ["Team", "Season"])
        ((keysOf df ["Team", "Season"]).take (i + 1)) (s1.take (i + 1))
      = (groupPrefix df ["Team", "Season"] i).map (spreadCell df.cols) := by
    have hmt1 : (keysOf df ["Team", "Season"]).take (i + 1)
        = (df.rows.take (i + 1)).map
            (fun r => keyCells df.cols r ["Team", "Season"]) := by
      unfold keysOf
      rw [List.map_take]
    have hmt2 : s1.take (i + 1)
        = (df.rows.take (i + 1)).map (spreadCell df.cols) := by
      rw [hs1, List.map_take]
    rw [hmt1, hmt2]
    unfold groupPrefix
    exact selectKey_map _ _ _ _
  have hfinal : wv.getD i none = winPctClaim df i := by
    rw [hwv, hK, hC, groupApply_getD _ _ _ i hkilen, hkk,
      winPctSeries_getD _ _ hlt, htake, hselp]
    rfl
  have hrowlen : (appendCol d2 "LastWkBye" lv).cols.length
      = ((appendCol d2 "LastWkBye" lv).rows.getD i []).length := by
    rw [h4, appendCol_cols, List.length_append, List.length_append, hr2len]
    rfl
  split
  · rw [cellAt_setCell_ne _ _ _ _ _ hrowlen (by decide), hcell, hfinal]
  · rw [hcell, hfinal]

/-- C2 amended: in a sorted byteam table, `add_derived_columns` sets
`LastWkBye` true exactly when the row's Week is not 1 and either the
row opens its `(Team, Season)` group or the previous group row's
Spread is null; a group's first row is coerced to false only when its
Week equals 1 (the `fillna(False)` of the source is dead code, since
`isnull()` never yields nulls). -/
theorem C2_amended_thm (df : Table)
    (hlen : ∀ r ∈ df.rows, r.length = df.cols.length)
    (hsorted : df.rows.Pairwise (fun a b => rowLE df.cols a b = true))
    (hkeys : ∀ r ∈ df.rows, (cellAt df.cols r "Team").isSome
      ∧ (cellAt df.cols r "Season").isSome)
    (hf1 : "Spread" ∉ df.cols) (hf2 : "WinPct" ∉ df.cols)
    (hf3 : "LastWkBye" ∉ df.cols) :
    ∀ i, i < df.rows.length →
      cellAt (add_derived_columns df).cols
          ((add_derived_columns df).rows.getD i []) "LastWkBye"
        = lastWkByeClaim df i := by
  intro i hi
  set s1 := df.rows.map (spreadCell df.cols) with hs1
  set d1 := appendCol df "Spread" s1 with hd1
  set wv := groupApply (keysOf d1 ["Team", "Season"]) (getCol d1 "Spread")
    winPctSeries with hwv
  set d2 := appendCol d1 "WinPct" wv with hd2
  set lv := fillnaFalse (groupApply (keysOf (sortTable d2) ["Team", "Season"])
    (getCol (sortTable d2) "Spread") lastWkByeSeries) with hlv
  have hout : add_derived_columns df
      = setWeek1False (appendCol (sortTable d2) "LastWkBye" lv) := rfl
  have hsort : sortTable d2 = d2 := by
    rw [hd2, hd1]
    exact sortTable_appendCol2 df "Spread" "WinPct" s1 wv hlen hsorted
      (by decide) (by decide) (by decide) (by decide) (by decide) (by decide)
  have hs1len : s1.length = df.rows.length := by rw [hs1, List.length_map]
  have hd1rows : d1.rows.length = df.rows.length := by
    rw [hd1]; exact appendCol_rows_length df "Spread" s1 hs1len
  have hd1hl : ∀ x ∈ d1.rows, x.length = d1.cols.length := by
    rw [hd1]; exact appendCol_hlen df "Spread" s1 hlen
  have hK : keysOf d1 ["Team", "Season"] = keysOf df ["Team", "Season"] := by
    rw [hd1]; exact keysOf_appendCol df "Spread" s1 _ hlen hs1len (by decide)
  have hC : getCol d1 "Spread" = s1 := by
    rw [hd1]; exact getCol_appendCol_self df "Spread" s1 hlen hs1len hf1
  have hwvlen : wv.length = df.rows.length := by
    rw [hwv, groupApply_length, hK, keysOf_length]
  have hd2rows : d2.rows.length = df.rows.length := by
    rw [hd2, appendCol_rows_length d1 "WinPct" wv (by rw [hwvlen, hd1rows])]
    exact hd1rows
  have hd2hl : ∀ x ∈ d2.rows, x.length = d2.cols.length := by
    rw [hd2]; exact appendCol_hlen d1 "WinPct" wv hd1hl
  have hK2 : keysOf d2 ["Team", "Season"] = keysOf df ["Team", "Season"] := by
    rw [hd2,
      keysOf_appendCol d1 "WinPct" wv _ hd1hl (by rw [hwvlen, hd1rows]) (by decide)]
    exact hK
  have hC2 : getCol d2 "Spread" = s1 := by
    rw [hd2, getCol_appendCol_ne d1 "WinPct" wv "Spread" hd1hl
      (by rw [hwvlen, hd1rows]) (by decide)]
    exact hC
  have hlv2 : lv = fillnaFalse (groupApply (keysOf df ["Team", "Season"]) s1
      lastWkByeSeries) := by
    rw [hlv, hsort, hK2, hC2]
  have hlvlen : lv.length = d2.rows.length := by
    rw [hlv2]
    show (List.map _ _).length = _
    rw [List.length_map, groupApply_length, keysOf_length, hd2rows]
  rw [hout, hsort]
  have hd4rows : (appendCol d2 "LastWkBye" lv).rows.length = d2.rows.length :=
    appendCol_rows_length d2 "LastWkBye" lv hlvlen
  have hi4 : i < (appendCol d2 "LastWkBye" lv).rows.length := by
    rw [hd4rows, hd2rows]; exact hi
  rw [setWeek1False_cols, setWeek1False_rows_getD _ i hi4]
  have h4 : (appendCol d2 "LastWkBye" lv).rows.getD i []
      = d2.rows.getD i [] ++ [lv.getD i none] :=
    appendCol_rows_getD d2 "LastWkBye" lv i hlvlen (by rw [hd2rows]; exact hi)
  have h2 : d2.rows.getD i [] = d1.rows.getD i [] ++ [wv.getD i none] := by
    rw [hd2]
    exact appendCol_rows_getD d1 "WinPct" wv i (by rw [hwvlen, hd1rows])
      (by rw [hd1rows]; exact hi)
  have h1 : d1.rows.getD i [] = df.rows.getD i [] ++ [s1.getD i none] := by
    rw [hd1]
    exact appendCol_rows_getD df "Spread" s1 i hs1len hi
  have hr2len : (d2.rows.getD i []).length = d2.cols.length :=
    hd2hl _ (getD_mem_of_lt (by rw [hd2rows]; exact hi))
  have hd1cl : d1.cols.length = (d1.rows.getD i []).length :=
    (hd1hl _ (getD_mem_of_lt (by rw [hd1rows]; exact hi))).symm
  have hdfcl : df.cols.length = (df.rows.getD i []).length :=
    (hlen _ (getD_mem_of_lt hi)).symm
  have hbyefresh : "LastWkBye" ∉ d2.cols := by
    rw [hd2, appendCol_cols, hd1, appendCol_cols]
    intro hmem
    rcases List.mem_append.mp hmem with h | h
    · rcases List.mem_append.mp h with h' | h'
      · exact hf3 h'
      · simp at h'
    · simp at h
  have hweq : toNum (cellAt (appendCol d2 "LastWkBye" lv).cols
        ((appendCol d2 "LastWkBye" lv).rows.getD i []) "Week")
      = toNum (cellAt df.cols (df.rows.getD i []) "Week") := by
    rw [h4, appendCol_cols,
      cellAt_append_one d2.cols _ "LastWkBye" "Week" _ hr2len.symm (by decide),
      h2, hd2, appendCol_cols,
      cellAt_append_one d1.cols _ "WinPct" "Week" _ hd1cl (by decide),
      h1, hd1, appendCol_cols,
      cellAt_append_one df.cols _ "Spread" "Week" _ hdfcl (by decide)]
  have hcellL : cellAt (appendCol d2 "LastWkBye" lv).cols
      ((appendCol d2 "LastWkBye" lv).rows.getD i []) "LastWkBye"
        = lv.getD i none := by
    rw [h4, appendCol_cols]
    exact cellAt_append_self d2.cols _ "LastWkBye" _ hr2len.symm hbyefresh
  have hrowlen : (appendCol d2 "LastWkBye" lv).cols.length
      = ((appendCol d2 "LastWkBye" lv).rows.getD i []).length := by
    rw [h4, appendCol_cols, List.length_append, List.length_append, hr2len]
    rfl
  have hbyemem : "LastWkBye" ∈ (appendCol d2 "LastWkBye" lv).cols := by
    rw [appendCol_cols]
    exact List.mem_append_right _ (List.mem_cons_self _ _)
  have hkk : (keysOf df ["Team", "Season"]).getD i []
      = keyCells df.cols (df.rows.getD i []) ["Team", "Season"] :=
    keysOf_getD df _ i hi
  have hklen : (keysOf df ["Team", "Season"]).length = s1.length := by
    rw [keysOf_length, hs1len]
  have hkilen : i < (keysOf df ["Team", "Season"]).length := by
    rw [keysOf_length]; exact hi
  have hserlen : (selectKey (keyCells df.cols (df.rows.getD i []) ["Team", "Season"])
        (keysOf df ["Team", "Season"]) s1).length
      = (keysOf df ["Team", "Season"]).count
          (keyCells df.cols (df.rows.getD i []) ["Team", "Season"]) :=
    selectKey_length _ _ _ hklen
  have hcnt : ((keysOf df ["Team", "Season"]).take (i + 1)).count
        (keyCells df.cols (df.rows.getD i []) ["Team", "Season"])
      = ((keysOf df ["Team", "Season"]).take i).count
          (keyCells df.cols (df.rows.getD i []) ["Team", "Season"]) + 1 :=
    count_take_succ_self _ i _ hkilen hkk
  have hlt : ((keysOf df ["Team", "Season"]).take i).count
        (keyCells df.cols (df.rows.getD i []) ["Team", "Season"])
      < (selectKey (keyCells df.cols (df.rows.getD i []) ["Team", "Season"])
          (keysOf df ["Team", "Season"]) s1).length := by
    rw [hserlen]
    have hsub := List.Sublist.count_le (List.take_sublist (i + 1)
      (keysOf df ["Team", "Season"]))
      (keyCells df.cols (df.rows.getD i []) ["Team", "Season"])
    omega
  have htake : (selectKey (keyCells df.cols (df.rows.getD i []) ["Team", "Season"])
        (keysOf df ["Team", "Season"]) s1).take
        (((keysOf df ["Team", "Season"]).take i).count
          (keyCells df.cols (df.rows.getD i []) ["Team", "Season"]) + 1)
      = selectKey (keyCells df.cols (df.rows.getD i []) ["Team", "Season"])
          ((keysOf df ["Team", "Season"]).take (i + 1)) (s1.take (i + 1)) :=
    selectKey_take _ _ i _ hkk hklen hkilen
  have hselp : selectKey (keyCells df.cols (df.rows.getD i []) ["Team", "Season"])
        ((keysOf df ["Team", "Season"]).take (i + 1)) (s1.take (i + 1))
      = (groupPrefix df ["Team", "Season"] i).map (spreadCell df.cols) := by
    have hmt1 : (keysOf df ["Team", "Season"]).take (i + 1)
        = (df.rows.take (i + 1)).map
            (fun r => keyCells df.cols r ["Team", "Season"]) := by
      unfold keysOf
      rw [List.map_take]
    have hmt2 : s1.take (i + 1)
        = (df.rows.take (i + 1)).map (spreadCell df.cols) := by
      rw [hs1, List.map_take]
    rw [hmt1, hmt2]
    unfold groupPrefix
    exact selectKey_map _ _ _ _
  have hprelen : (groupPrefix df ["Team", "Season"] i).length
      = ((keysOf df ["Team", "Season"]).take i).count
          (keyCells df.cols (df.rows.getD i []) ["Team", "Season"]) + 1 := by
    have h5 := congrArg List.length (htake.trans hselp)
    rw [List.length_take, List.length_map, Nat.min_eq_left hlt] at h5
    exact h5.symm
  have hlvget : lv.getD i none
      = some (Val.bool (if ((keysOf df ["Team", "Season"]).take i).count
            (keyCells df.cols (df.rows.getD i []) ["Team", "Season"]) < 1
          then (none : Cell)
          else (selectKey (keyCells df.cols (df.rows.getD i []) ["Team", "Season"])
              (keysOf df ["Team", "Season"]) s1).getD
              (((keysOf df ["Team", "Season"]).take i).count
                (keyCells df.cols (df.rows.getD i []) ["Team", "Season"]) - 1)
              none).isNone) := by
    rw [hlv2]
    unfold fillnaFalse
    rw [map_getD _ _ i none none
      (by rw [groupApply_length, keysOf_length]; exact hi)]
    rw [groupApply_getD _ _ _ i hkilen, hkk, lastWkByeSeries_getD _ _ hlt]
    simp
  have hXeq : (if ((keysOf df ["Team", "Season"]).take i).count
        (keyCells df.cols (df.rows.getD i []) ["Team", "Season"]) < 1
      then (none : Cell)
      else (selectKey (keyCells df.cols (df.rows.getD i []) ["Team", "Season"])
          (keysOf df ["Team", "Season"]) s1).getD
          (((keysOf df ["Team", "Season"]).take i).count
            (keyCells df.cols (df.rows.getD i []) ["Team", "Season"]) - 1)
          none).isNone
      = (if (groupPrefix df ["Team", "Season"] i).length ≤ 1 then true
         else (spreadCell df.cols ((groupPrefix df ["Team", "Season"] i).getD
            ((groupPrefix df ["Team", "Season"] i).length - 2) [])).isNone) := by
    rcases Nat.eq_zero_or_pos (((keysOf df ["Team", "Season"]).take i).count
        (keyCells df.cols (df.rows.getD i []) ["Team", "Season"])) with h0 | hpos
    · rw [h0, if_pos (by omega), if_pos (by rw [hprelen, h0])]
      rfl
    · rw [if_neg (by omega), if_neg (by rw [hprelen]; omega)]
      have hj : ((keysOf df ["Team", "Season"]).take i).count
            (keyCells df.cols (df.rows.getD i []) ["Team", "Season"]) - 1
          < ((keysOf df ["Team", "Season"]).take i).count
            (keyCells df.cols (df.rows.getD i []) ["Team", "Season"]) + 1 := by
        omega
      rw [← getD_take _ (((keysOf df ["Team", "Season"]).take i).count
          (keyCells df.cols (df.rows.getD i []) ["Team", "Season"]) + 1) _ hj,
        htake, hselp,
        map_getD _ _ _ [] _ (by rw [hprelen]; omega)]
      have hidx : (groupPrefix df ["Team", "Season"] i).length - 2
          = ((keysOf df ["Team", "Season"]).take i).count
              (keyCells df.cols (df.rows.getD i []) ["Team", "Season"]) - 1 := by
        rw [hprelen]; omega
      rw [hidx]
  split
  · next hcond =>
    rw [cellAt_setCell_self _ _ _ _ hrowlen hbyemem]
    unfold lastWkByeClaim
    have hw1 : (toNum (cellAt df.cols (df.rows.getD i []) "Week") == some 1)
        = true := by
      rw [← hweq]; exact hcond
    rw [hw1]
    rfl
  · next hcond =>
    rw [hcellL, hlvget]
    unfold lastWkByeClaim
    have hw1 : (toNum (cellAt df.cols (df.rows.getD i []) "Week") == some 1)
        = false := by
      rw [← hweq]
      exact Bool.not_eq_true _ ▸ (by simpa using hcond)
    rw [hw1, hXeq]
    rfl

/-- One sorted-and-appended feature column projected back onto the
original columns: the caller's table after `add_lag` / `add_rolling_mean`
/ `add_ewma` is the sorted input plus the new column. -/
theorem sortAppend_proj (df : Table) (nm : String) (vals : List Cell)
    (hlen : ∀ r ∈ df.rows, r.length = df.cols.length)
    (hvals : vals.length = df.rows.length) :
    (appendCol (sortTable df) nm vals).rows.map (fun r => r.take df.cols.length)
      = sortRows df.cols df.rows := by
  have hsl : ∀ r ∈ (sortTable df).rows, r.length = df.cols.length := by
    intro r hr
    exact hlen r ((List.perm_insertionSort _ df.rows).subset hr)
  rw [appendCol_proj_le (sortTable df) nm vals df.cols.length
    (by rw [hvals, sortTable_rows, sortRows_length])
    (fun r hr => (hsl r hr).ge)]
  exact map_take_id _ _ hsl

/-- C8 amended: the four feature functions return nothing in Python and
mutate the caller's table in place; the embedding returns that mutated
table, and this theorem characterises it: the columns are the input
columns plus the new derived column names, and the rows are the
`(Team, Season, Week)`-sorted input rows with the derived cells
appended (projecting each row back onto the original columns yields
exactly the sorted input rows).  `from_byteam_to_bygame` is the one
function of the claim that does leave its input unchanged: it reads
`df` only through the filtered copies `df[df.AtHome]` and
`df[df.AtHome == False]`. -/
theorem C8_amended_thm (df : Table) (c pfx : String) (w m lag : Nat) (com : Rat)
    (hlen : ∀ r ∈ df.rows, r.length = df.cols.length)
    (hf3 : "LastWkBye" ∉ df.cols) :
    ((add_lag df [c] pfx lag).cols = df.cols ++ [pfx ++ c]
      ∧ (add_lag df [c] pfx lag).rows.map (fun r => r.take df.cols.length)
          = sortRows df.cols df.rows)
    ∧ ((add_rolling_mean df [c] pfx w m).cols = df.cols ++ [pfx ++ c]
      ∧ (add_rolling_mean df [c] pfx w m).rows.map (fun r => r.take df.cols.length)
          = sortRows df.cols df.rows)
    ∧ ((add_ewma df [c] pfx com).cols = df.cols ++ [pfx ++ c]
      ∧ (add_ewma df [c] pfx com).rows.map (fun r => r.take df.cols.length)
          = sortRows df.cols df.rows)
    ∧ ((add_derived_columns df).cols
          = ((df.cols ++ ["Spread"]) ++ ["WinPct"]) ++ ["LastWkBye"]
      ∧ (add_derived_columns df).rows.map (fun r => r.take df.cols.length)
          = sortRows df.cols df.rows) := by
  refine ⟨⟨rfl, ?_⟩, ⟨rfl, ?_⟩, ⟨rfl, ?_⟩, ⟨rfl, ?_⟩⟩
  · exact sortAppend_proj df (pfx ++ c) _ hlen
      (by rw [groupApply_length, keysOf_length]
          exact (List.perm_insertionSort
            (fun a b => rowLE df.cols a b = true) df.rows).length_eq)
  · exact sortAppend_proj df (pfx ++ c) _ hlen
      (by rw [groupApply_length, keysOf_length]
          exact (List.perm_insertionSort
            (fun a b => rowLE df.cols a b = true) df.rows).length_eq)
  · exact sortAppend_proj df (pfx ++ c) _ hlen
      (by rw [groupApply_length, keysOf_length]
          exact (List.perm_insertionSort
            (fun a b => rowLE df.cols a b = true) df.rows).length_eq)
  · set s1 := df.rows.map (spreadCell df.cols) with hs1
    set d1 := appendCol df "Spread" s1 with hd1
    set wv := groupApply (keysOf d1 ["Team", "Season"]) (getCol d1 "Spread")
      winPctSeries with hwv
    set d2 := appendCol d1 "WinPct" wv with hd2
    set lv := fillnaFalse (groupApply (keysOf (sortTable d2) ["Team", "Season"])
      (getCol (sortTable d2) "Spread") lastWkByeSeries) with hlv
    have hout : add_derived_columns df
        = setWeek1False (appendCol (sortTable d2) "LastWkBye" lv) := rfl
    have hs1len : s1.length = df.rows.length := by rw [hs1, List.length_map]
    have hd1rows : d1.rows.length = df.rows.length := by
      rw [hd1]; exact appendCol_rows_length df "Spread" s1 hs1len
    have hd1hl : ∀ x ∈ d1.rows, x.length = d1.cols.length := by
      rw [hd1]; exact appendCol_hlen df "Spread" s1 hlen
    have hwvlen : wv.length = df.rows.length := by
      rw [hwv, groupApply_length, keysOf_length, hd1rows]
    have hd2rows : d2.rows.length = df.rows.length := by
      rw [hd2, appendCol_rows_length d1 "WinPct" wv (by rw [hwvlen, hd1rows])]
      exact hd1rows
    have hd2hl : ∀ x ∈ d2.rows, x.length = d2.cols.length := by
      rw [hd2]; exact appendCol_hlen d1 "WinPct" wv hd1hl
    have hd3rows : (sortTable d2).rows.length = df.rows.length := by
      rw [sortTable_rows, sortRows_length]
      exact hd2rows
    have hd3hl : ∀ x ∈ (sortTable d2).rows, x.length = d2.cols.length := by
      intro x hx
      rw [sortTable_rows] at hx
      exact hd2hl x (mem_sortRows x hx)
    have hlvlen : lv.length = (sortTable d2).rows.length := by
      rw [hlv]
      show (List.map _ _).length = _
      rw [List.length_map, groupApply_length, keysOf_length]
    have hd1c : d1.cols = df.cols ++ ["Spread"] := by rw [hd1, appendCol_cols]
    have hd2c : d2.cols = (df.cols ++ ["Spread"]) ++ ["WinPct"] := by
      rw [hd2, appendCol_cols, hd1c]
    -- row shapes of d2
    have hshape : ∀ a ∈ d2.rows, ∃ r, r ∈ df.rows ∧ a.take df.cols.length = r
        ∧ keyTSW d2.cols a = keyTSW df.cols r := by
      intro a ha
      obtain ⟨x, v2, hx, rfl⟩ := appendCol_mem d1 "WinPct" wv a (hd2 ▸ ha)
      obtain ⟨r, v1, hr, rfl⟩ := appendCol_mem df "Spread" s1 x (hd1 ▸ hx)
      refine ⟨r, hr, ?_, ?_⟩
      · rw [List.take_append_of_le_length
          (by rw [List.length_append, hlen r hr]; omega),
          List.take_append_of_le_length (by rw [hlen r hr]),
          ← hlen r hr, List.take_length]
      · rw [hd2c]
        have h1 : keyTSW ((df.cols ++ ["Spread"]) ++ ["WinPct"]) ((r ++ [v1]) ++ [v2])
            = keyTSW (df.cols ++ ["Spread"]) (r ++ [v1]) := by
          apply keyTSW_append_one
          · rw [List.length_append, List.length_append, hlen r hr]
            rfl
          · decide
          · decide
          · decide
        rw [h1]
        exact keyTSW_append_one df.cols r "Spread" v1 (hlen r hr).symm
          (by decide) (by decide) (by decide)
    -- project the final table step by step
    rw [hout]
    have hw1proj : (setWeek1False (appendCol (sortTable d2) "LastWkBye" lv)).rows.map
          (fun r => r.take df.cols.length)
        = (appendCol (sortTable d2) "LastWkBye" lv).rows.map
            (fun r => r.take df.cols.length) := by
      show ((appendCol (sortTable d2) "LastWkBye" lv).rows.map _).map _ = _
      rw [List.map_map]
      apply List.map_congr_left
      intro r hr
      show (if toNum (cellAt (appendCol (sortTable d2) "LastWkBye" lv).cols r "Week")
            == some 1
          then setCell (appendCol (sortTable d2) "LastWkBye" lv).cols r
            "LastWkBye" (some (Val.bool false))
          else r).take df.cols.length = r.take df.cols.length
      split
      · apply setCell_take_front
        · intro x hx
          rw [appendCol_cols, sortTable_cols, hd2c] at hx
          have hx2 : x ∈ df.cols := by
            have h6 : (((df.cols ++ ["Spread"]) ++ ["WinPct"]) ++ ["LastWkBye"]).take
                df.cols.length = df.cols := by
              rw [List.take_append_of_le_length
                  (by rw [List.length_append, List.length_append]; omega),
                List.take_append_of_le_length
                  (by rw [List.length_append]; omega),
                List.take_append_of_le_length (by omega),
                List.take_length]
            rw [h6] at hx
            exact hx
          intro hxc
          exact hf3 (hxc ▸ hx2)
        · obtain ⟨x, v, hx, rfl⟩ := appendCol_mem (sortTable d2) "LastWkBye" lv r hr
          rw [appendCol_cols, sortTable_cols, List.length_append,
            List.length_append, hd3hl x hx]
          rfl
      · rfl
    rw [hw1proj,
      appendCol_proj_le (sortTable d2) "LastWkBye" lv df.cols.length hlvlen
        (fun r hr => by rw [hd3hl r hr, hd2c]
                        rw [List.length_append, List.length_append]
                        omega)]
    rw [sortTable_rows,
      sortRows_map_take d2.cols df.cols d2.rows df.cols.length ?_]
    · have hproj : d2.rows.map (fun r => r.take df.cols.length) = df.rows := by
        rw [hd2, appendCol_proj_le d1 "WinPct" wv df.cols.length
            (by rw [hwvlen, hd1rows])
            (fun r hr => by
              obtain ⟨x, v, hx, rfl⟩ := appendCol_mem df "Spread" s1 r (hd1 ▸ hr)
              rw [List.length_append, hlen x hx]
              omega),
          hd1, appendCol_proj_le df "Spread" s1 df.cols.length hs1len
            (fun r hr => (hlen r hr).ge)]
        exact map_take_id _ _ hlen
      rw [hproj]
    · intro a ha b hb
      obtain ⟨ra, hra, hta, hka⟩ := hshape a ha
      obtain ⟨rb, hrb, htb, hkb⟩ := hshape b hb
      rw [hta, htb]
      unfold rowLE
      rw [hka, hkb]

theorem C8_witness :
    (∀ r ∈ tblC8w.rows, r.length = tblC8w.cols.length)
    ∧ ("LastWkBye" ∉ tblC8w.cols)
    ∧ (((add_lag tblC8w ["Fumbles"] "m_" 1).cols
          = tblC8w.cols ++ ["m_" ++ "Fumbles"]
      ∧ (add_lag tblC8w ["Fumbles"] "m_" 1).rows.map
            (fun r => r.take tblC8w.cols.length)
          = sortRows tblC8w.cols tblC8w.rows)
    ∧ ((add_rolling_mean tblC8w ["Fumbles"] "m_" 5 2).cols
          = tblC8w.cols ++ ["m_" ++ "Fumbles"]
      ∧ (add_rolling_mean tblC8w ["Fumbles"] "m_" 5 2).rows.map
            (fun r => r.take tblC8w.cols.length)
          = sortRows tblC8w.cols tblC8w.rows)
    ∧ ((add_ewma tblC8w ["Fumbles"] "m_" 2).cols
          = tblC8w.cols ++ ["m_" ++ "Fumbles"]
      ∧ (add_ewma tblC8w ["Fumbles"] "m_" 2).rows.map
            (fun r => r.take tblC8w.cols.length)
          = sortRows tblC8w.cols tblC8w.rows)
    ∧ ((add_derived_columns tblC8w).cols
          = ((tblC8w.cols ++ ["Spread"]) ++ ["WinPct"]) ++ ["LastWkBye"]
      ∧ (add_derived_columns tblC8w).rows.map
            (fun r => r.take tblC8w.cols.length)
          = sortRows tblC8w.cols tblC8w.rows)) :=
  ⟨by decide, by decide,
   C8_amended_thm tblC8w "Fumbles" "m_" 5 2 1 2 (by decide) (by decide)⟩

theorem C2_witness :
    (∀ r ∈ tblC2w.rows, r.length = tblC2w.cols.length)
    ∧ tblC2w.rows.Pairwise (fun a b => rowLE tblC2w.cols a b = true)
    ∧ (∀ r ∈ tblC2w.rows, (cellAt tblC2w.cols r "Team").isSome
        ∧ (cellAt tblC2w.cols r "Season").isSome)
    ∧ "Spread" ∉ tblC2w.cols ∧ "WinPct" ∉ tblC2w.cols ∧ "LastWkBye" ∉ tblC2w.cols
    ∧ (∀ i, i < tblC2w.rows.length →
        cellAt (add_derived_columns tblC2w).cols
            ((add_derived_columns tblC2w).rows.getD i []) "LastWkBye"
          = lastWkByeClaim tblC2w i)
    ∧ lastWkByeClaim tblC2w 0 = some (Val.bool false)
    ∧ lastWkByeClaim tblC2w 1 = some (Val.bool false)
    ∧ lastWkByeClaim tblC2w 2 = some (Val.bool true) :=
  ⟨by decide, by decide, by decide, by decide, by decide, by decide,
   C2_amended_thm tblC2w (by decide) (by decide) (by decide) (by decide)
     (by decide) (by decide),
   by decide, by decide, by decide⟩

theorem C4_witness :
    (∀ r ∈ tblC4.rows, r.length = tblC4.cols.length)
    ∧ tblC4.rows.Pairwise (fun a b => rowLE tblC4.cols a b = true)
    ∧ (∀ r ∈ tblC4.rows, (cellAt tblC4.cols r "Team").isSome
        ∧ (cellAt tblC4.cols r "Season").isSome)
    ∧ "Spread" ∉ tblC4.cols ∧ "WinPct" ∉ tblC4.cols ∧ "LastWkBye" ∉ tblC4.cols
    ∧ (∀ i, i < tblC4.rows.length →
        cellAt (add_derived_columns tblC4).cols
            ((add_derived_columns tblC4).rows.getD i []) "WinPct"
          = winPctClaim tblC4 i)
    ∧ winPctClaim tblC4 0 = some (Val.num (1 / 2))
    ∧ winPctClaim tblC4 1 = some (Val.num (1 / 2))
    ∧ winPctClaim tblC4 2 = some (Val.num (3 / 4)) :=
  ⟨by decide, by decide, by decide, by decide, by decide, by decide,
   C4_winPct tblC4 (by decide) (by decide) (by decide) (by decide)
     (by decide) (by decide),
   by decide, by decide, by decide⟩

/-- C7: in a sorted table, `add_rolling_mean` writes at each row the
simple average of the non-null values of the source column in the
trailing window of up to `window` rows of the row's Team group
(the group spans seasons), null when fewer than `min_periods`
observations are available. -/
theorem C7_rollingMean (df : Table) (c pfx : String) (w m : Nat)
    (hlen : ∀ r ∈ df.rows, r.length = df.cols.length)
    (hsorted : df.rows.Pairwise (fun a b => rowLE df.cols a b = true))
    (hteam : ∀ r ∈ df.rows, (cellAt df.cols r "Team").isSome)
    (hfresh : pfx ++ c ∉ df.cols) :
    ∀ i, i < df.rows.length →
      cellAt (add_rolling_mean df [c] pfx w m).cols
          ((add_rolling_mean df [c] pfx w m).rows.getD i []) (pfx ++ c)
        = rollingMeanClaim df c w m i := by
  intro i hi
  have hsid : sortTable df = df := by
    show (⟨df.cols, sortRows df.cols df.rows⟩ : Table) = df
    rw [sortRows_eq_of_sorted df.cols df.rows hsorted]
  have hout : add_rolling_mean df [c] pfx w m
      = appendCol df (pfx ++ c)
          (groupApply (keysOf df ["Team"]) (getCol df c)
            (rollingMeanSeries w m)) := by
    unfold add_rolling_mean
    rw [hsid]
    rfl
  rw [hout]
  have hvlen : (groupApply (keysOf df ["Team"]) (getCol df c)
      (rollingMeanSeries w m)).length = df.rows.length := by
    rw [groupApply_length, keysOf_length]
  rw [appendCol_cols, appendCol_rows_getD df _ _ i hvlen hi,
    cellAt_append_self df.cols _ (pfx ++ c) _
      ((hlen _ (getD_mem_of_lt hi)).symm) hfresh]
  have hkk : (keysOf df ["Team"]).getD i []
      = keyCells df.cols (df.rows.getD i []) ["Team"] := keysOf_getD df _ i hi
  have hklen : (keysOf df ["Team"]).length = (getCol df c).length := by
    rw [keysOf_length]
    unfold getCol
    rw [List.length_map]
  have hkilen : i < (keysOf df ["Team"]).length := by
    rw [keysOf_length]; exact hi
  have hserlen := selectKey_length (keyCells df.cols (df.rows.getD i []) ["Team"])
    (keysOf df ["Team"]) (getCol df c) hklen
  have hcnt := count_take_succ_self (keysOf df ["Team"]) i _ hkilen hkk
  have hlt : ((keysOf df ["Team"]).take i).count
        (keyCells df.cols (df.rows.getD i []) ["Team"])
      < (selectKey (keyCells df.cols (df.rows.getD i []) ["Team"])
          (keysOf df ["Team"]) (getCol df c)).length := by
    rw [hserlen]
    have hsub := List.Sublist.count_le (List.take_sublist (i + 1)
      (keysOf df ["Team"])) (keyCells df.cols (df.rows.getD i []) ["Team"])
    omega
  have htake := selectKey_take (keysOf df ["Team"]) (getCol df c) i _ hkk hklen hkilen
  have hselp : selectKey (keyCells df.cols (df.rows.getD i []) ["Team"])
        ((keysOf df ["Team"]).take (i + 1)) ((getCol df c).take (i + 1))
      = (groupPrefix df ["Team"] i).map (fun r => cellAt df.cols r c) := by
    have hmt1 : (keysOf df ["Team"]).take (i + 1)
        = (df.rows.take (i + 1)).map (fun r => keyCells df.cols r ["Team"]) := by
      unfold keysOf
      rw [List.map_take]
    have hmt2 : (getCol df c).take (i + 1)
        = (df.rows.take (i + 1)).map (fun r => cellAt df.cols r c) := by
      unfold getCol
      rw [List.map_take]
    rw [hmt1, hmt2]
    unfold groupPrefix
    exact selectKey_map _ _ _ _
  have hprelen : ((groupPrefix df ["Team"] i).map
        (fun r => cellAt df.cols r c)).length
      = ((keysOf df ["Team"]).take i).count
          (keyCells df.cols (df.rows.getD i []) ["Team"]) + 1 := by
    have h5 := congrArg List.length (htake.trans hselp)
    rw [List.length_take, Nat.min_eq_left hlt] at h5
    exact h5.symm
  rw [groupApply_getD _ _ _ i hkilen, hkk,
    rollingMeanSeries_getD w m _ _ hlt,
    rollingClaim_eq w m _ _ _ (htake.trans hselp) hprelen]
  rfl

theorem C7_witness :
    (∀ r ∈ tblC7.rows, r.length = tblC7.cols.length)
    ∧ tblC7.rows.Pairwise (fun a b => rowLE tblC7.cols a b = true)
    ∧ (∀ r ∈ tblC7.rows, (cellAt tblC7.cols r "Team").isSome)
    ∧ "m5wk_Fumbles" ∉ tblC7.cols
    ∧ (∀ i, i < tblC7.rows.length →
        cellAt (add_rolling_mean tblC7 ["Fumbles"] "m5wk_" 5 2).cols
            ((add_rolling_mean tblC7 ["Fumbles"] "m5wk_" 5 2).rows.getD i [])
            ("m5wk_" ++ "Fumbles")
          = rollingMeanClaim tblC7 "Fumbles" 5 2 i)
    ∧ rollingMeanClaim tblC7 "Fumbles" 5 2 0 = none
    ∧ rollingMeanClaim tblC7 "Fumbles" 5 2 1 = some (Val.num 15) :=
  ⟨by decide, by decide, by decide, by decide,
   C7_rollingMean tblC7 "Fumbles" "m5wk_" 5 2 (by decide) (by decide)
     (by decide) (by decide),
   by decide, by decide⟩

/-- C5 amended: in a sorted table, `add_ewma` writes at the first row
of each Team group the row's own source value, and at every row the
pandas `adjust=True` weighted average of the group's observations so
far with weights `(1 - alpha)^(age)`, `alpha = 1 / (1 + center)`; no
minimum-periods floor applies. -/
theorem C5_amended_thm (df : Table) (c pfx : String) (center : Rat)
    (hlen : ∀ r ∈ df.rows, r.length = df.cols.length)
    (hsorted : df.rows.Pairwise (fun a b => rowLE df.cols a b = true))
    (hteam : ∀ r ∈ df.rows, (cellAt df.cols r "Team").isSome)
    (hfresh : pfx ++ c ∉ df.cols) :
    ∀ i, i < df.rows.length →
      cellAt (add_ewma df [c] pfx center).cols
          ((add_ewma df [c] pfx center).rows.getD i []) (pfx ++ c)
        = ewmaClaim df c center i
      ∧ ((groupPrefix df ["Team"] i).length = 1 →
          ∀ q, toNum (cellAt df.cols (df.rows.getD i []) c) = some q →
          ewmaClaim df c center i = some (Val.num q)) := by
  intro i hi
  have hsid : sortTable df = df := by
    show (⟨df.cols, sortRows df.cols df.rows⟩ : Table) = df
    rw [sortRows_eq_of_sorted df.cols df.rows hsorted]
  constructor
  · have hout : add_ewma df [c] pfx center
        = appendCol df (pfx ++ c)
            (groupApply (keysOf df ["Team"]) (getCol df c)
              (ewmaSeries center)) := by
      unfold add_ewma
      rw [hsid]
      rfl
    rw [hout]
    have hvlen : (groupApply (keysOf df ["Team"]) (getCol df c)
        (ewmaSeries center)).length = df.rows.length := by
      rw [groupApply_length, keysOf_length]
    rw [appendCol_cols, appendCol_rows_getD df _ _ i hvlen hi,
      cellAt_append_self df.cols _ (pfx ++ c) _
        ((hlen _ (getD_mem_of_lt hi)).symm) hfresh]
    have hkk : (keysOf df ["Team"]).getD i []
        = keyCells df.cols (df.rows.getD i []) ["Team"] := keysOf_getD df _ i hi
    have hklen : (keysOf df ["Team"]).length = (getCol df c).length := by
      rw [keysOf_length]
      unfold getCol
      rw [List.length_map]
    have hkilen : i < (keysOf df ["Team"]).length := by
      rw [keysOf_length]; exact hi
    have hserlen := selectKey_length (keyCells df.cols (df.rows.getD i []) ["Team"])
      (keysOf df ["Team"]) (getCol df c) hklen
    have hlt : ((keysOf df ["Team"]).take i).count
          (keyCells df.cols (df.rows.getD i []) ["Team"])
        < (selectKey (keyCells df.cols (df.rows.getD i []) ["Team"])
            (keysOf df ["Team"]) (getCol df c)).length := by
      rw [hserlen]
      have hcnt := count_take_succ_self (keysOf df ["Team"]) i _ hkilen hkk
      have hsub := List.Sublist.count_le (List.take_sublist (i + 1)
        (keysOf df ["Team"])) (keyCells df.cols (df.rows.getD i []) ["Team"])
      omega
    have htake := selectKey_take (keysOf df ["Team"]) (getCol df c) i _ hkk hklen hkilen
    have hselp : selectKey (keyCells df.cols (df.rows.getD i []) ["Team"])
          ((keysOf df ["Team"]).take (i + 1)) ((getCol df c).take (i + 1))
        = (groupPrefix df ["Team"] i).map (fun r => cellAt df.cols r c) := by
      have hmt1 : (keysOf df ["Team"]).take (i + 1)
          = (df.rows.take (i + 1)).map (fun r => keyCells df.cols r ["Team"]) := by
        unfold keysOf
        rw [List.map_take]
      have hmt2 : (getCol df c).take (i + 1)
          = (df.rows.take (i + 1)).map (fun r => cellAt df.cols r c) := by
        unfold getCol
        rw [List.map_take]
      rw [hmt1, hmt2]
      unfold groupPrefix
      exact selectKey_map _ _ _ _
    have hprelen : ((groupPrefix df ["Team"] i).map
          (fun r => cellAt df.cols r c)).length
        = ((keysOf df ["Team"]).take i).count
            (keyCells df.cols (df.rows.getD i []) ["Team"]) + 1 := by
      have h5 := congrArg List.length (htake.trans hselp)
      rw [List.length_take, Nat.min_eq_left hlt] at h5
      exact h5.symm
    rw [groupApply_getD _ _ _ i hkilen, hkk,
      ewmaSeries_getD center _ _ hlt,
      ewmaAt_take (1 / (1 + center)) _ _ _ (htake.trans hselp) hprelen]
    rfl
  · intro hone q hq
    have hpre : groupPrefix df ["Team"] i = [df.rows.getD i []] := by
      have hsplit := groupPrefix_last df ["Team"] i hi
      rcases hnil : (df.rows.take i).filter (fun r => keyCells df.cols r ["Team"]
          == keyCells df.cols (df.rows.getD i []) ["Team"]) with _ | ⟨x, xs⟩
      · rw [hsplit, hnil]
        rfl
      · exfalso
        rw [hsplit, hnil] at hone
        simp at hone
    unfold ewmaClaim
    rw [hpre]
    show (ewmaAt (1 / (1 + center)) [toNum (cellAt df.cols (df.rows.getD i []) c)]
        0).map Val.num = _
    rw [hq]
    unfold ewmaAt
    simp [List.range_succ]

theorem C5_witness :
    (∀ r ∈ tblC5.rows, r.length = tblC5.cols.length)
    ∧ tblC5.rows.Pairwise (fun a b => rowLE tblC5.cols a b = true)
    ∧ (∀ r ∈ tblC5.rows, (cellAt tblC5.cols r "Team").isSome)
    ∧ "ewma_Points" ∉ tblC5.cols
    ∧ (∀ i, i < tblC5.rows.length →
        cellAt (add_ewma tblC5 ["Points"] "ewma_" 2).cols
            ((add_ewma tblC5 ["Points"] "ewma_" 2).rows.getD i [])
            ("ewma_" ++ "Points")
          = ewmaClaim tblC5 "Points" 2 i
        ∧ ((groupPrefix tblC5 ["Team"] i).length = 1 →
            ∀ q, toNum (cellAt tblC5.cols (tblC5.rows.getD i []) "Points") = some q →
            ewmaClaim tblC5 "Points" 2 i = some (Val.num q)))
    ∧ ewmaClaim tblC5 "Points" 2 0 = some (Val.num 0)
    ∧ ewmaClaim tblC5 "Points" 2 1 = some (Val.num (3 / 5)) :=
  ⟨by decide, by decide, by decide, by decide,
   C5_amended_thm tblC5 "Points" "ewma_" 2 (by decide) (by decide)
     (by decide) (by decide),
   by decide, by decide⟩

/-- C10: with `augment=false`, `from_byteam_to_bygame` returns exactly
the `AtHome`-flagged rows, with the `AtHome` column removed and every
other column's name, order, and per-row value unchanged (no renaming,
prefixing, mirroring, or join happens on this path). -/
theorem C10_homeOnly (df : Table) (dont_mirror : List String)
    (hlen : ∀ r ∈ df.rows, r.length = df.cols.length) :
    (from_byteam_to_bygame df false dont_mirror).cols
        = df.cols.filter (fun c => !(c == "AtHome"))
    ∧ (from_byteam_to_bygame df false dont_mirror).rows.length
        = (df.rows.filter (isHomeRow df.cols)).length
    ∧ ∀ c ∈ df.cols, c ≠ "AtHome" → ∀ i : Nat,
        cellAt (from_byteam_to_bygame df false dont_mirror).cols
            ((from_byteam_to_bygame df false dont_mirror).rows.getD i []) c
          = cellAt df.cols ((df.rows.filter (isHomeRow df.cols)).getD i []) c := by
  have hout : from_byteam_to_bygame df false dont_mirror
      = delCol ⟨df.cols, df.rows.filter (isHomeRow df.cols)⟩ "AtHome" := rfl
  refine ⟨by rw [hout, delCol_cols], ?_, ?_⟩
  · rw [hout]
    show ((delCol ⟨df.cols, df.rows.filter (isHomeRow df.cols)⟩ "AtHome").rows).length = _
    rw [delCol_rows, List.length_map]
  · intro c _ hcA i
    rw [hout, delCol_cols, delCol_rows]
    rw [List.getD_eq_getElem?_getD, List.getElem?_map,
      List.getD_eq_getElem?_getD (df.rows.filter (isHomeRow df.cols)) i []]
    cases hge : (df.rows.filter (isHomeRow df.cols))[i]? with
    | none => simp [cellAt_nil]
    | some r =>
      have hr : r ∈ df.rows := List.mem_of_mem_filter (List.getElem?_mem hge)
      have hq : (fun x => !(x == "AtHome")) c = true := by
        simp [beq_eq_false_iff_ne.mpr hcA]
      simpa using cellAt_subAssoc df.cols r (fun x => !(x == "AtHome")) c
        (hlen r hr).symm hq

theorem C10_witness :
    (∀ r ∈ tblC10.rows, r.length = tblC10.cols.length)
    ∧ ((from_byteam_to_bygame tblC10 false ["Spread"]).cols
          = tblC10.cols.filter (fun c => !(c == "AtHome"))
      ∧ (from_byteam_to_bygame tblC10 false ["Spread"]).rows.length
          = (tblC10.rows.filter (isHomeRow tblC10.cols)).length
      ∧ ∀ c ∈ tblC10.cols, c ≠ "AtHome" → ∀ i : Nat,
          cellAt (from_byteam_to_bygame tblC10 false ["Spread"]).cols
              ((from_byteam_to_bygame tblC10 false ["Spread"]).rows.getD i []) c
            = cellAt tblC10.cols
                ((tblC10.rows.filter (isHomeRow tblC10.cols)).getD i []) c) :=
  ⟨by decide, C10_homeOnly tblC10 ["Spread"] (by decide)⟩

/-- C8, the claim as stated is false: `add_lag` and
`add_derived_columns` mutate the caller's table (the embedding returns
the caller's table as it stands after the call); on a concrete table
the table after the call differs from the input. -/
theorem C8_counterexample :
    add_lag tblC8 ["Fumbles"] "lag1_" 1 ≠ tblC8
    ∧ add_derived_columns tblC8 ≠ tblC8 := by
  refine ⟨by decide, by decide⟩

/-- C3: the value `add_rolling_mean`, `add_ewma`, or `add_lag` writes
into the new column at the row keyed `K = (Team, Season, Week)` depends
only on rows of `K`'s own team at or before `K` in `(Season, Week)`
order: replacing the table's rows by key-aligned rows that agree on
those rows (but may change any value in other teams' rows or in the
same team's strictly later rows) leaves the derived value at `K`
unchanged — while rows of the same team from a prior season do
contribute: on the concrete pair of tables differing only in the 2014
week-17 value, the 2015 week-1 lag, rolling-mean and EWMA values all
track the prior-season value (the statistics do not restart at season
boundaries). -/
theorem C3_pastOnly (df : Table) (rows2 : List Row) (c pfx : String)
    (lag w m : Nat) (com : Rat) (K : Cell × Cell × Cell)
    (hlen : df.rows.length = rows2.length)
    (hlen1 : ∀ r ∈ df.rows, r.length = df.cols.length)
    (hlen2 : ∀ r ∈ rows2, r.length = df.cols.length)
    (hfresh : (pfx ++ c) ∉ df.cols)
    (hT : "Team" ≠ pfx ++ c) (hS : "Season" ≠ pfx ++ c) (hW : "Week" ≠ pfx ++ c)
    (hkeys : ∀ p ∈ df.rows.zip rows2, keyTSW df.cols p.1 = keyTSW df.cols p.2)
    (hagree : ∀ p ∈ df.rows.zip rows2, (keyTSW df.cols p.1).1 = K.1 →
      swLE (keyTSW df.cols p.1).2 K.2 = true → p.1 = p.2) :
    (valAtKey (add_lag df [c] pfx lag) K (pfx ++ c)
        = valAtKey (add_lag ⟨df.cols, rows2⟩ [c] pfx lag) K (pfx ++ c)
      ∧ valAtKey (add_rolling_mean df [c] pfx w m) K (pfx ++ c)
        = valAtKey (add_rolling_mean ⟨df.cols, rows2⟩ [c] pfx w m) K (pfx ++ c)
      ∧ valAtKey (add_ewma df [c] pfx com) K (pfx ++ c)
        = valAtKey (add_ewma ⟨df.cols, rows2⟩ [c] pfx com) K (pfx ++ c))
    ∧ valAtKey (add_lag tblC3a ["Sacks"] "lag1_" 1)
        (vS "A", vN 2015, vN 1) "lag1_Sacks" = vN 10
    ∧ valAtKey (add_lag tblC3b ["Sacks"] "lag1_" 1)
        (vS "A", vN 2015, vN 1) "lag1_Sacks" = vN 99
    ∧ valAtKey (add_rolling_mean tblC3a ["Sacks"] "m5wk_" 5 2)
        (vS "A", vN 2015, vN 1) "m5wk_Sacks" = vN 15
    ∧ valAtKey (add_rolling_mean tblC3b ["Sacks"] "m5wk_" 5 2)
        (vS "A", vN 2015, vN 1) "m5wk_Sacks" = vN (119 / 2)
    ∧ valAtKey (add_ewma tblC3a ["Sacks"] "ewma2wk_" 2)
        (vS "A", vN 2015, vN 1) "ewma2wk_Sacks" = vN 16
    ∧ valAtKey (add_ewma tblC3b ["Sacks"] "ewma2wk_" 2)
        (vS "A", vN 2015, vN 1) "ewma2wk_Sacks" = vN (258 / 5) := by
  refine ⟨⟨?_, ?_, ?_⟩, by decide, by decide, by decide, by decide, by decide,
    by decide⟩
  · exact groupCol_valAtKey_congr df.cols df.rows rows2 (pfx ++ c) c
      (shiftSeries lag) K (shiftSeries_prefixDep lag) hlen hlen1 hlen2 hfresh
      hT hS hW hkeys hagree
  · exact groupCol_valAtKey_congr df.cols df.rows rows2 (pfx ++ c) c
      (rollingMeanSeries w m) K (rollingMeanSeries_prefixDep w m) hlen hlen1
      hlen2 hfresh hT hS hW hkeys hagree
  · exact groupCol_valAtKey_congr df.cols df.rows rows2 (pfx ++ c) c
      (ewmaSeries com) K (ewmaSeries_prefixDep com) hlen hlen1 hlen2 hfresh
      hT hS hW hkeys hagree

theorem C3_witness :
    (tblC3a.rows.length = tblC3c.rows.length
      ∧ (∀ p ∈ tblC3a.rows.zip tblC3c.rows,
          keyTSW tblC3a.cols p.1 = keyTSW tblC3a.cols p.2)
      ∧ (∀ p ∈ tblC3a.rows.zip tblC3c.rows,
          (keyTSW tblC3a.cols p.1).1 = (vS "A" : Cell) →
          swLE (keyTSW tblC3a.cols p.1).2 ((vN 2014 : Cell), (vN 17 : Cell)) = true →
          p.1 = p.2))
    ∧ valAtKey (add_lag tblC3a ["Sacks"] "lag1_" 1)
        (vS "A", vN 2014, vN 17) "lag1_Sacks"
      = valAtKey (add_lag ⟨tblC3a.cols, tblC3c.rows⟩ ["Sacks"] "lag1_" 1)
          (vS "A", vN 2014, vN 17) "lag1_Sacks" :=
  ⟨⟨by decide, by decide, by decide⟩,
   (C3_pastOnly tblC3a tblC3c.rows "Sacks" "lag1_" 1 5 2 2
      (vS "A", vN 2014, vN 17) (by decide) (by decide) (by decide) (by decide)
      (by decide) (by decide) (by decide) (by decide) (by decide)).1.1⟩

/-- C1: on a byteam table whose `(Season, Week, Team)` triples are
unique (and whose column set is a byteam one: no `Home`/`Away` columns,
away rows with a non-null `Team`), `from_byteam_to_bygame` with
`augment=true` returns exactly one row per home-flagged input row; the
output columns are the home columns under the home renaming (common and
`dont_mirror` names kept, stats `H_`-prefixed) followed by the away
partition's non-key columns; each output row begins with the
corresponding home row's cells (the original home-perspective values,
positionally aligned with the renamed home columns); and a bye row
(home-flagged, null `Opponent`) survives as its home cells padded with
nulls in every away-side column. -/
theorem C1_leftJoin (df : Table) (dm : List String)
    (hlen1 : ∀ r ∈ df.rows, r.length = df.cols.length)
    (hH : "Home" ∉ df.cols) (hA : "Away" ∉ df.cols)
    (hUniq : (df.rows.map (fun r =>
        keyCells df.cols r ["Season", "Week", "Team"])).Nodup)
    (hTeamNN : ∀ r ∈ df.rows, isAwayRow df.cols r = true →
        (cellAt df.cols r "Team").isSome = true) :
    (from_byteam_to_bygame df true dm).rows.length
        = (df.rows.filter (isHomeRow df.cols)).length
    ∧ (from_byteam_to_bygame df true dm).cols
        = (homePart df).cols.map (homeName dm)
          ++ (awayRenamed dm df).cols.filter (fun c => decide (c ∉ common_cols))
    ∧ (∀ j, j < (df.rows.filter (isHomeRow df.cols)).length →
        ((from_byteam_to_bygame df true dm).rows.getD j []).take
            (homePart df).cols.length
          = (homePart df).rows.getD j [])
    ∧ (∀ j, j < (df.rows.filter (isHomeRow df.cols)).length →
        cellAt df.cols ((df.rows.filter (isHomeRow df.cols)).getD j [])
            "Opponent" = none →
        (from_byteam_to_bygame df true dm).rows.getD j []
          = (homePart df).rows.getD j []
            ++ ((awayRenamed dm df).cols.filter
                (fun c => decide (c ∉ common_cols))).map
                  (fun _ => (none : Cell))) := by
  have hout : from_byteam_to_bygame df true dm
      = mergeLeft (homeRenamed dm df) (awayRenamed dm df) common_cols := rfl
  have hb : ∀ lr : Row,
      (matchRows (homeRenamed dm df) (awayRenamed dm df) common_cols lr).length
        ≤ 1 :=
    fun lr => matchRows_le_one dm df lr hlen1 hH hA hUniq
  have hemit : ∀ lr ∈ (homeRenamed dm df).rows,
      (mergeEmit (homeRenamed dm df) (awayRenamed dm df) common_cols lr).length
        = 1 := by
    intro lr _
    rw [mergeEmit_length]
    have hble := hb lr
    omega
  have hrowsmap : (mergeLeft (homeRenamed dm df) (awayRenamed dm df)
        common_cols).rows
      = (homeRenamed dm df).rows.map (fun lr =>
          (mergeEmit (homeRenamed dm df) (awayRenamed dm df) common_cols
            lr).getD 0 []) := by
    show listFlat (homeRenamed dm df).rows
        (mergeEmit (homeRenamed dm df) (awayRenamed dm df) common_cols) = _
    exact listFlat_singleton
      (mergeEmit (homeRenamed dm df) (awayRenamed dm df) common_cols) []
      (homeRenamed dm df).rows hemit
  have hlenHR : (homeRenamed dm df).rows.length
      = (df.rows.filter (isHomeRow df.cols)).length := by
    show ((delCol ⟨df.cols, df.rows.filter (isHomeRow df.cols)⟩
      "AtHome").rows).length = _
    rw [delCol_rows, List.length_map]
  refine ⟨?_, rfl, ?_, ?_⟩
  · rw [hout, hrowsmap, List.length_map]
    exact hlenHR
  · intro j hj
    have hjH : j < (homeRenamed dm df).rows.length := by
      rw [hlenHR]
      exact hj
    have hrj : (df.rows.filter (isHomeRow df.cols)).getD j [] ∈ df.rows :=
      List.mem_of_mem_filter (getD_mem_gen hj [])
    have hlrj : (homeRenamed dm df).rows.getD j []
        = ((df.cols.zip ((df.rows.filter (isHomeRow df.cols)).getD j [])).filter
            (fun p => !(p.1 == "AtHome"))).map Prod.snd := by
      show ((delCol ⟨df.cols, df.rows.filter (isHomeRow df.cols)⟩
        "AtHome").rows).getD j [] = _
      rw [delCol_rows, map_getD _ _ j [] [] hj]
    have hlrlen : ((homeRenamed dm df).rows.getD j []).length
        = (homePart df).cols.length := by
      rw [hlrj]
      exact (subAssoc_len df.cols ((df.rows.filter (isHomeRow df.cols)).getD j [])
        (fun x => !(x == "AtHome"))
        (hlen1 _ hrj).symm).symm
    rw [hout, hrowsmap, map_getD _ _ j [] [] hjH]
    exact emit_take (homeRenamed dm df) (awayRenamed dm df)
      ((homeRenamed dm df).rows.getD j []) (hb _) _ hlrlen
  · intro j hj hbye
    have hjH : j < (homeRenamed dm df).rows.length := by
      rw [hlenHR]
      exact hj
    have hrj : (df.rows.filter (isHomeRow df.cols)).getD j [] ∈ df.rows :=
      List.mem_of_mem_filter (getD_mem_gen hj [])
    have hlrj : (homeRenamed dm df).rows.getD j []
        = ((df.cols.zip ((df.rows.filter (isHomeRow df.cols)).getD j [])).filter
            (fun p => !(p.1 == "AtHome"))).map Prod.snd := by
      show ((delCol ⟨df.cols, df.rows.filter (isHomeRow df.cols)⟩
        "AtHome").rows).getD j [] = _
      rw [delCol_rows, map_getD _ _ j [] [] hj]
    have hnone : matchRows (homeRenamed dm df) (awayRenamed dm df) common_cols
        ((homeRenamed dm df).rows.getD j []) = [] := by
      show ((awayRenamed dm df).rows.filter (fun rr =>
          keyCells (awayRenamed dm df).cols rr common_cols
            == keyCells (homeRenamed dm df).cols
                ((homeRenamed dm df).rows.getD j []) common_cols)) = []
      rw [List.filter_eq_nil_iff]
      intro rr hrr hprr
      rw [awayRenamed_rows dm df] at hrr
      obtain ⟨a, ha, rfl⟩ := List.mem_map.mp hrr
      have hadf : a ∈ df.rows := List.mem_of_mem_filter ha
      have haway : isAwayRow df.cols a = true := List.of_mem_filter ha
      have hkeq : keyCells (awayRenamed dm df).cols
          ((fun r => (((df.cols.filter (fun x => !(x == "AtHome"))).zip
              (((df.cols.zip r).filter (fun p => !(p.1 == "AtHome"))).map
                Prod.snd)).filter
              (fun p => !mirrorDrop dm p.1)).map Prod.snd) a) common_cols
          = keyCells (homeRenamed dm df).cols
              ((homeRenamed dm df).rows.getD j []) common_cols := eq_of_beq hprr
      have e1 : keyCells (awayRenamed dm df).cols
          ((fun r => (((df.cols.filter (fun x => !(x == "AtHome"))).zip
              (((df.cols.zip r).filter (fun p => !(p.1 == "AtHome"))).map
                Prod.snd)).filter
              (fun p => !mirrorDrop dm p.1)).map Prod.snd) a) common_cols
          = [cellAt df.cols a "Season", cellAt df.cols a "Week",
             cellAt df.cols a "Opponent", cellAt df.cols a "Team"] :=
        awayRow_key dm df.cols a (hlen1 a hadf) hH hA
      have e2 : keyCells (homeRenamed dm df).cols
          ((homeRenamed dm df).rows.getD j []) common_cols
          = [cellAt df.cols ((df.rows.filter (isHomeRow df.cols)).getD j [])
               "Season",
             cellAt df.cols ((df.rows.filter (isHomeRow df.cols)).getD j [])
               "Week",
             cellAt df.cols ((df.rows.filter (isHomeRow df.cols)).getD j [])
               "Team",
             cellAt df.cols ((df.rows.filter (isHomeRow df.cols)).getD j [])
               "Opponent"] := by
        rw [hlrj]
        exact homeRow_key dm df.cols
          ((df.rows.filter (isHomeRow df.cols)).getD j []) (hlen1 _ hrj) hH hA
      have e3 := e1.symm.trans (hkeq.trans e2)
      injection e3 with g1h e4
      injection e4 with g2h e5
      injection e5 with g3h e6
      injection e6 with g4h _
      rw [hbye] at g4h
      have hnn := hTeamNN a hadf haway
      rw [g4h] at hnn
      simp at hnn
    rw [hout, hrowsmap, map_getD _ _ j [] [] hjH]
    exact emit_bye (homeRenamed dm df) (awayRenamed dm df)
      ((homeRenamed dm df).rows.getD j []) hnone

theorem C1_witness :
    ((∀ r ∈ tblC1.rows, r.length = tblC1.cols.length)
      ∧ "Home" ∉ tblC1.cols ∧ "Away" ∉ tblC1.cols
      ∧ (tblC1.rows.map (fun r =>
          keyCells tblC1.cols r ["Season", "Week", "Team"])).Nodup
      ∧ (∀ r ∈ tblC1.rows, isAwayRow tblC1.cols r = true →
          (cellAt tblC1.cols r "Team").isSome = true))
    ∧ (from_byteam_to_bygame tblC1 true []).rows.length
        = (tblC1.rows.filter (isHomeRow tblC1.cols)).length :=
  ⟨⟨by decide, by decide, by decide, by decide, by decide⟩,
   (C1_leftJoin tblC1 [] (by decide) (by decide) (by decide) (by decide)
      (by decide)).1⟩

end NflPool
